import Mathlib

/-!
# Verification development for `irc` (`type.go`)

A shallow embedding of the message codec of `type.go`: the `Sender` / `Message`
data model, the builder (`Message.build`, `Message.String`), the error
predicate (`Message.IsError`), `split`, the parser `NewMessage`, the streaming
`Writer` and `Reader`, and the catalog of command constants.

Modelling conventions.

* A Go `string` is an immutable sequence of bytes and `len` counts bytes, so a
  string is a `List UInt8`.  Slicing `s[:n]` is `List.take n`, `s[n:]` is
  `List.drop n`.
* An indexing expression `s[i]` panics when `i` is out of range; every
  function that indexes returns `Except Abort _`, where
  `Abort.indexOutOfRange` is that run-time panic.
* Go's `(Message, error)` result pair is `Message × Option Error`, `none`
  being the `nil` error.
* The `for len(input) > 0` loop of `NewMessage` is a recursion on a fuel
  counter that `NewMessage` initialises with the length of the remaining
  input; running out of fuel is `Abort.outOfFuel`.
* `bufio.Writer` and `bufio.Reader` belong to the standard library; they are
  modelled after their implementation, over an in-memory sink (which records
  the bytes it accepts and may fail) and an in-memory source (the sequence of
  unread bytes, ended by `io.EOF`).
-/

namespace IRC

/-! ## Strings -/

/-- A Go string: a sequence of bytes. -/
abbrev GoString := List UInt8

/-- The bytes of an ASCII string literal (used for literals only). -/
def lit (s : String) : GoString := s.toList.map (fun c => c.toNat.toUInt8)

/-- Byte `' '`. -/
abbrev SP : UInt8 := 0x20
/-- Byte `':'`. -/
abbrev COLON : UInt8 := 0x3A
/-- Byte `'!'`. -/
abbrev BANG : UInt8 := 0x21
/-- Byte `'@'`. -/
abbrev AT : UInt8 := 0x40
/-- Byte `'\r'`. -/
abbrev CR : UInt8 := 0x0D
/-- Byte `'\n'`. -/
abbrev LF : UInt8 := 0x0A

/-- The string `"\r\n"`. -/
abbrev CRLF : GoString := [CR, LF]

/-- Reasons for which a Go function does not return normally. -/
inductive Abort where
  | indexOutOfRange
  | outOfFuel
deriving DecidableEq, Repr

deriving instance DecidableEq for Except

/-- Go's `s[i]`: the byte at index `i`, a run-time panic when out of range. -/
def index (s : GoString) (i : Nat) : Except Abort UInt8 :=
  match s.get? i with
  | some c => .ok c
  | none => .error .indexOutOfRange

/-- Go's `strings.HasSuffix(s, suffix)`:
`len(s) >= len(suffix) && s[len(s)-len(suffix):] == suffix`. -/
def HasSuffix (s suffix : GoString) : Bool :=
  decide (s.length ≥ suffix.length) && (s.drop (s.length - suffix.length) == suffix)

/-- Go's `strings.IndexByte(s, c)`: the index of the first instance of `c` in
`s`, or `-1` if `c` is not present. -/
def IndexByte : GoString → UInt8 → Int
  | [], _ => -1
  | x :: xs, c =>
    if x = c then 0
    else
      let r := IndexByte xs c
      if r ≥ 0 then r + 1 else -1

/-! ## Data model -/

/-- Go values of type `error` that the codec handles: its own sentinel
`ErrInvalidMessage`, or an error reported by an underlying stream. -/
inductive Error where
  | ErrInvalidMessage
  | io (code : Nat)
deriving DecidableEq, Repr

/-- Structured sender information (`type Sender struct`). -/
structure Sender where
  Nickname : GoString
  User : GoString
  Host : GoString
deriving DecidableEq, Repr

/-- Parsed raw relay chat message (`type Message struct`); `Command` is a
`string` newtype. -/
structure Message where
  Sender : Sender
  Command : GoString
  Params : List GoString
deriving DecidableEq, Repr

/-- The zero value `Message{}` (`var msg Message`). -/
def Message.zero : Message := ⟨⟨[], [], []⟩, [], []⟩

/-- Constant `TryAgainReply Command = "263"`. -/
def TryAgainReply : GoString := lit "263"

/-! ## Builder -/

/-- The `builder` interface, restricted to the two methods `build` calls.
Each write returns the sink afterwards and the error it reported (`none` is
`nil`). -/
structure builder (σ : Type) where
  WriteByte : σ → UInt8 → σ × Option Error
  WriteString : σ → GoString → σ × Option Error

/-- Sequencing `if err := w; err != nil { return err }` followed by `k`. -/
def andThen {σ : Type} (r : σ × Option Error) (k : σ → σ × Option Error) :
    σ × Option Error :=
  match r.2 with
  | none => k r.1
  | some e => (r.1, some e)

/-- The loop `for i, param := range m.Params` of `build`; `n` is
`len(m.Params)` and `i` the index of the head of the remaining list. -/
def Message.buildParams {σ : Type} (b : builder σ) (n : Nat) :
    Nat → List GoString → σ → σ × Option Error
  | _, [], s => (s, none)
  | i, param :: rest, s =>
    andThen (b.WriteByte s SP) fun s =>
    andThen (if i = n - 1 then b.WriteByte s COLON else (s, none)) fun s =>
    andThen (b.WriteString s param) fun s =>
    Message.buildParams b n (i + 1) rest s

/-- `func (m Message) build(b builder) error`. -/
def Message.build {σ : Type} (m : Message) (b : builder σ) (s : σ) : σ × Option Error :=
  -- Process prefix if available
  andThen
    (if m.Sender.Nickname.length > 0 then
      andThen (b.WriteByte s COLON) fun s =>
      andThen (b.WriteString s m.Sender.Nickname) fun s =>
      andThen
        (if m.Sender.User.length > 0 then
          andThen (b.WriteByte s BANG) fun s =>
          b.WriteString s m.Sender.User
        else (s, none)) fun s =>
      andThen
        (if m.Sender.Host.length > 0 then
          andThen (b.WriteByte s AT) fun s =>
          b.WriteString s m.Sender.Host
        else (s, none)) fun s =>
      b.WriteByte s SP
    else (s, none)) fun s =>
  -- Write command
  andThen (b.WriteString s m.Command) fun s =>
  -- Write trailing params, if available
  andThen (Message.buildParams b m.Params.length 0 m.Params s) fun s =>
  -- Write trailing carriage return and newline
  b.WriteString s CRLF

/-- Go's `strings.Builder`: the sink is the accumulated string and no write
ever fails. -/
def stringsBuilder : builder GoString where
  WriteByte := fun s c => (s ++ [c], none)
  WriteString := fun s t => (s ++ t, none)

/-- `func (m Message) String() string`: build into a fresh `strings.Builder`,
ignore the error, return the accumulated string. -/
def Message.String (m : Message) : GoString :=
  (m.build stringsBuilder []).1

/-- `func (m Message) IsError() bool`. -/
def Message.IsError (m : Message) : Bool :=
  decide (m.Command.length = 3) &&
    (m.Command.get? 0 == some 0x34 || m.Command.get? 0 == some 0x35 ||
      m.Command == TryAgainReply)

/-! ## Parser -/

/-- `func split(input string, sep byte) (string, string)`. -/
def split (input : GoString) (sep : UInt8) : GoString × GoString :=
  let pos := IndexByte input sep
  if pos ≥ 0 then (input.take pos.toNat, input.drop (pos.toNat + 1))
  else (input, [])

/-- The loop `for len(input) > 0` of `NewMessage` (lines 388-399), with
`params` the value of `msg.Params` so far. -/
def NewMessage.params : Nat → GoString → List GoString → Except Abort (List GoString)
  | 0, input, params =>
    if input.length > 0 then .error .outOfFuel else .ok params
  | fuel + 1, input, params =>
    if input.length > 0 then do
      -- Check if current params is the last param
      let c ← index input 0
      if c = COLON then
        .ok (params ++ [input.drop 1])
      else
        -- Separate parameter from the next one
        let (param, input) := split input SP
        NewMessage.params fuel input (params ++ [param])
    else .ok params

/-- Lines 380-401 of `NewMessage`: parse the command and the parameters;
`msg` is the message as the prefix block (lines 367-379) left it. -/
def NewMessage.command (msg : Message) (input : GoString) :
    Except Abort (Message × Option Error) :=
  let (command, input) := split input SP
  if command.length = 0 then
    .ok (msg, some .ErrInvalidMessage)
  else do
    let msg := { msg with Command := command }
    let params ← NewMessage.params input.length input msg.Params
    .ok ({ msg with Params := params }, none)

/-- Lines 367-401 of `NewMessage`: the code that runs on the line once its
terminator has been stripped. -/
def NewMessage.line (msg : Message) (input : GoString) :
    Except Abort (Message × Option Error) := do
  -- Check if input has sender (prefix) information
  let c ← index input 0
  if c = COLON then
    -- Trim prefix token
    let input := input.drop 1
    -- Split prefix and input message
    let (pfx, input) := split input SP
    if input.length = 0 ∨ pfx.length = 0 then
      .ok (msg, some .ErrInvalidMessage)
    else
      -- Get nickname, username, and hostname
      let (nickname, host) := split pfx AT
      let msg := { msg with Sender := { msg.Sender with Nickname := nickname, Host := host } }
      let (nickname, user) := split msg.Sender.Nickname BANG
      let msg := { msg with Sender := { msg.Sender with Nickname := nickname, User := user } }
      NewMessage.command msg input
  else
    NewMessage.command msg input

/-- `func NewMessage(input string) (Message, error)`. -/
def NewMessage (input : GoString) : Except Abort (Message × Option Error) :=
  -- Structured message output
  let msg : Message := Message.zero
  -- Do not process empty message
  if input.length = 0 then
    .ok (msg, some .ErrInvalidMessage)
  else do
    -- Strip carriage return and/or new line token in input
    let input ←
      if HasSuffix input CRLF then
        (.ok (input.take (input.length - 2)) : Except Abort GoString)
      else do
        let c ← index input (input.length - 1)
        if c = LF then .ok (input.take (input.length - 1)) else .ok input
    NewMessage.line msg input

/-! ## Writer and Reader

`Writer` wraps a `bufio.Writer` and `Reader` a `bufio.Reader`. Both are
standard library types; they are modelled here after their Go implementation,
over in-memory streams. -/

/-- Go's `io.EOF`. -/
abbrev EOF : Error := Error.io 0

/-- Go's `io.ErrShortWrite`. -/
abbrev ErrShortWrite : Error := Error.io 1

/-- An in-memory `io.Writer`: `data` records the bytes accepted so far.
`script` fixes the outcome of the coming `Write` calls, one entry per call:
the number of bytes the call accepts and the error it returns. Once the script
is used up every call accepts all its bytes and returns `nil`, so the plain
in-memory sink has the empty script. -/
structure Sink where
  data : GoString
  script : List (Nat × Option Error)
deriving DecidableEq, Repr

/-- `Write(p []byte) (n int, err error)` of the sink. -/
def Sink.Write (k : Sink) (p : GoString) : Sink × Nat × Option Error :=
  match k.script with
  | [] => ({ k with data := k.data ++ p }, p.length, none)
  | (n, err) :: rest => ({ data := k.data ++ p.take n, script := rest }, min n p.length, err)

/-- Go's `bufio.Writer`: the sticky error `err`, the buffered bytes
`buf[0:n]` (field `buf`), the buffer size `len(buf)` (field `size`) and the
underlying writer `wr`. -/
structure bufioWriter where
  err : Option Error
  buf : GoString
  size : Nat
  wr : Sink
deriving DecidableEq, Repr

/-- `func (b *Writer) Available() int { return len(b.buf) - b.n }`. -/
def bufioWriter.Available (b : bufioWriter) : Nat := b.size - b.buf.length

/-- `func (b *Writer) Flush() error`: write the buffered bytes to the
underlying writer; a short write without error is `io.ErrShortWrite`; on error
the unwritten bytes stay buffered and the error becomes sticky. -/
def bufioWriter.Flush (b : bufioWriter) : bufioWriter × Option Error :=
  if b.err ≠ none then (b, b.err)
  else if b.buf.length = 0 then (b, none)
  else
    let (wr, n, err) := b.wr.Write b.buf
    let err := if n < b.buf.length ∧ err = none then some ErrShortWrite else err
    match err with
    | some e => ({ b with err := some e, buf := b.buf.drop n, wr := wr }, some e)
    | none => ({ b with buf := [], wr := wr }, none)

/-- `func (b *Writer) WriteByte(c byte) error`. -/
def bufioWriter.WriteByte (b : bufioWriter) (c : UInt8) : bufioWriter × Option Error :=
  if b.err ≠ none then (b, b.err)
  else if b.Available ≤ 0 then
    match b.Flush with
    | (b, some _) => (b, b.err)
    | (b, none) => ({ b with buf := b.buf ++ [c] }, none)
  else ({ b with buf := b.buf ++ [c] }, none)

/-- The loop `for len(s) > b.Available() && b.err == nil` of
`bufio.Writer.WriteString`: fill the buffer from `s`, flush, continue with the
rest of `s`. The recursion is on a fuel counter; the loop also ends when the
fuel is used up, which does not happen with the fuel `WriteString` supplies
(`WriteString_loop_exit`). -/
def bufioWriter.WriteString.loop : Nat → bufioWriter → GoString → bufioWriter × GoString
  | 0, b, s => (b, s)
  | fuel + 1, b, s =>
    if s.length > b.Available ∧ b.err = none then
      let n := min b.Available s.length
      let b := { b with buf := b.buf ++ s.take n }
      let b := b.Flush.1
      bufioWriter.WriteString.loop fuel b (s.drop n)
    else (b, s)

/-- `func (b *Writer) WriteString(s string) (int, error)`, without the byte
count (which `build` discards) and without the shortcut for underlying writers
that implement `io.StringWriter`. -/
def bufioWriter.WriteString (b : bufioWriter) (s : GoString) : bufioWriter × Option Error :=
  let (b, s) := bufioWriter.WriteString.loop (s.length + 2) b s
  if b.err ≠ none then (b, b.err)
  else ({ b with buf := b.buf ++ s.take (min b.Available s.length) }, none)

/-- A `*bufio.Writer` as a `builder`. -/
def bufioBuilder : builder bufioWriter where
  WriteByte := bufioWriter.WriteByte
  WriteString := bufioWriter.WriteString

/-- Relay chat message writer (`type Writer struct`). -/
structure Writer where
  wr : bufioWriter
deriving DecidableEq, Repr

/-- `func (w *Writer) Write(msg Message) error`. -/
def Writer.Write (w : Writer) (msg : Message) : Writer × Option Error :=
  match msg.build bufioBuilder w.wr with
  | (wr, some err) => (⟨wr⟩, some err)
  | (wr, none) => (⟨wr.Flush.1⟩, wr.Flush.2)

/-- `func NewWriter(w io.Writer) *Writer`; `bufio.NewWriter` allocates a buffer
of 4096 bytes. -/
def NewWriter (w : Sink) : Writer :=
  ⟨{ err := none, buf := [], size := 4096, wr := w }⟩

/-- Go's `bufio.Reader` over its source: `unread` is the sequence of bytes not
yet consumed, buffered or still in the source; the source reports `io.EOF`
when they are used up. -/
structure bufioReader where
  unread : GoString
deriving DecidableEq, Repr

/-- `func (b *Reader) ReadString(delim byte) (string, error)`: read up to and
including the first `delim`; when the source ends before a `delim`, return the
bytes read and `io.EOF`. -/
def bufioReader.ReadString (b : bufioReader) (delim : UInt8) :
    bufioReader × GoString × Option Error :=
  let i := IndexByte b.unread delim
  if i ≥ 0 then (⟨b.unread.drop (i.toNat + 1)⟩, b.unread.take (i.toNat + 1), none)
  else (⟨[]⟩, b.unread, some EOF)

/-- Relay chat message reader (`type Reader struct`). -/
structure Reader where
  rd : bufioReader
deriving DecidableEq, Repr

/-- `func (r *Reader) Read() (Message, error)`. -/
def Reader.Read (r : Reader) : Reader × Except Abort (Message × Option Error) :=
  -- Read input message as string
  let (rd, msg, err) := r.rd.ReadString LF
  match err with
  | some e => (⟨rd⟩, .ok (Message.zero, some e))
  -- Parse message
  | none => (⟨rd⟩, NewMessage msg)

/-- `func NewReader(r io.Reader) *Reader`, over an in-memory source. -/
def NewReader (source : GoString) : Reader := ⟨⟨source⟩⟩

/-! ## Command catalog

The three `const` blocks of `type.go`, each constant under its own name, and
the list of the constants of each block in declaration order. -/

/-- Constant `PasswordMessage Command = "PASS"`. -/
def PasswordMessage : GoString := lit "PASS"
/-- Constant `NicknameMessage Command = "NICK"`. -/
def NicknameMessage : GoString := lit "NICK"
/-- Constant `UserMessage Command = "USER"`. -/
def UserMessage : GoString := lit "USER"
/-- Constant `OperatorMessage Command = "OPER"`. -/
def OperatorMessage : GoString := lit "OPER"
/-- Constant `ModeMessage Command = "MODE"`. -/
def ModeMessage : GoString := lit "MODE"
/-- Constant `ServiceMessage Command = "SERVICE"`. -/
def ServiceMessage : GoString := lit "SERVICE"
/-- Constant `QuitMessage Command = "QUIT"`. -/
def QuitMessage : GoString := lit "QUIT"
/-- Constant `SquitMessage Command = "SQUIT"`. -/
def SquitMessage : GoString := lit "SQUIT"
/-- Constant `JoinMessage Command = "JOIN"`. -/
def JoinMessage : GoString := lit "JOIN"
/-- Constant `PartMessage Command = "PART"`. -/
def PartMessage : GoString := lit "PART"
/-- Constant `TopicMessage Command = "TOPIC"`. -/
def TopicMessage : GoString := lit "TOPIC"
/-- Constant `NamesMessage Command = "NAMES"`. -/
def NamesMessage : GoString := lit "NAMES"
/-- Constant `ListMessage Command = "LIST"`. -/
def ListMessage : GoString := lit "LIST"
/-- Constant `InviteMessage Command = "INVITE"`. -/
def InviteMessage : GoString := lit "INVITE"
/-- Constant `KickMessage Command = "KICK"`. -/
def KickMessage : GoString := lit "KICK"
/-- Constant `PrivateMessage Command = "PRIVMSG"`. -/
def PrivateMessage : GoString := lit "PRIVMSG"
/-- Constant `NoticeMessage Command = "NOTICE"`. -/
def NoticeMessage : GoString := lit "NOTICE"
/-- Constant `MotdMessage Command = "MOTD"`. -/
def MotdMessage : GoString := lit "MOTD"
/-- Constant `ListUsersMessage Command = "LUSERS"`. -/
def ListUsersMessage : GoString := lit "LUSERS"
/-- Constant `VersionMessage Command = "VERSION"`. -/
def VersionMessage : GoString := lit "VERSION"
/-- Constant `StatsMessage Command = "STATS"`. -/
def StatsMessage : GoString := lit "STATS"
/-- Constant `LinksMessage Command = "LINKS"`. -/
def LinksMessage : GoString := lit "LINKS"
/-- Constant `TimeMessage Command = "TIME"`. -/
def TimeMessage : GoString := lit "TIME"
/-- Constant `ConnectMessage Command = "CONNECT"`. -/
def ConnectMessage : GoString := lit "CONNECT"
/-- Constant `TraceMessage Command = "TRACE"`. -/
def TraceMessage : GoString := lit "TRACE"
/-- Constant `AdminMessage Command = "ADMIN"`. -/
def AdminMessage : GoString := lit "ADMIN"
/-- Constant `InfoMessage Command = "INFO"`. -/
def InfoMessage : GoString := lit "INFO"
/-- Constant `ServiceListMessage Command = "SERVLIST"`. -/
def ServiceListMessage : GoString := lit "SERVLIST"
/-- Constant `ServiceQueryMessage Command = "SQUERY"`. -/
def ServiceQueryMessage : GoString := lit "SQUERY"
/-- Constant `WhoMessage Command = "WHO"`. -/
def WhoMessage : GoString := lit "WHO"
/-- Constant `WhoisMessage Command = "WHOIS"`. -/
def WhoisMessage : GoString := lit "WHOIS"
/-- Constant `WhowasMessage Command = "WHOWAS"`. -/
def WhowasMessage : GoString := lit "WHOWAS"
/-- Constant `KillMessage Command = "KILL"`. -/
def KillMessage : GoString := lit "KILL"
/-- Constant `PingMessage Command = "PING"`. -/
def PingMessage : GoString := lit "PING"
/-- Constant `PongMessage Command = "PONG"`. -/
def PongMessage : GoString := lit "PONG"
/-- Constant `ErrorMessage Command = "ERROR"`. -/
def ErrorMessage : GoString := lit "ERROR"
/-- Constant `AwayMessage Command = "AWAY"`. -/
def AwayMessage : GoString := lit "AWAY"
/-- Constant `RehashMessage Command = "REHASH"`. -/
def RehashMessage : GoString := lit "REHASH"
/-- Constant `DieMessage Command = "DIE"`. -/
def DieMessage : GoString := lit "DIE"
/-- Constant `RestartMessage Command = "RESTART"`. -/
def RestartMessage : GoString := lit "RESTART"
/-- Constant `SummonMessage Command = "SUMMON"`. -/
def SummonMessage : GoString := lit "SUMMON"
/-- Constant `UsersMessage Command = "USERS"`. -/
def UsersMessage : GoString := lit "USERS"
/-- Constant `WallopsMessage Command = "WALLOPS"`. -/
def WallopsMessage : GoString := lit "WALLOPS"
/-- Constant `UserHostMessage Command = "USERHOST"`. -/
def UserHostMessage : GoString := lit "USERHOST"
/-- Constant `IsonMessage Command = "ISON"`. -/
def IsonMessage : GoString := lit "ISON"

/-- Message commands (the first `const` block). -/
def messageCommands : List GoString :=
  [PasswordMessage, NicknameMessage, UserMessage, OperatorMessage, ModeMessage,
   ServiceMessage, QuitMessage, SquitMessage, JoinMessage, PartMessage, TopicMessage,
   NamesMessage, ListMessage, InviteMessage, KickMessage, PrivateMessage, NoticeMessage,
   MotdMessage, ListUsersMessage, VersionMessage, StatsMessage, LinksMessage, TimeMessage,
   ConnectMessage, TraceMessage, AdminMessage, InfoMessage, ServiceListMessage,
   ServiceQueryMessage, WhoMessage, WhoisMessage, WhowasMessage, KillMessage, PingMessage,
   PongMessage, ErrorMessage, AwayMessage, RehashMessage, DieMessage, RestartMessage,
   SummonMessage, UsersMessage, WallopsMessage, UserHostMessage, IsonMessage]

/-- Constant `WelcomeReply Command = "001"`. -/
def WelcomeReply : GoString := lit "001"
/-- Constant `YourHostReply Command = "002"`. -/
def YourHostReply : GoString := lit "002"
/-- Constant `CreatedReply Command = "003"`. -/
def CreatedReply : GoString := lit "003"
/-- Constant `MyInfoReply Command = "004"`. -/
def MyInfoReply : GoString := lit "004"
/-- Constant `BounceReply Command = "005"`. -/
def BounceReply : GoString := lit "005"
/-- Constant `UserHostReply Command = "302"`. -/
def UserHostReply : GoString := lit "302"
/-- Constant `IsonReply Command = "303"`. -/
def IsonReply : GoString := lit "303"
/-- Constant `AwayReply Command = "301"`. -/
def AwayReply : GoString := lit "301"
/-- Constant `UnawayReply Command = "305"`. -/
def UnawayReply : GoString := lit "305"
/-- Constant `NowAwayReply Command = "306"`. -/
def NowAwayReply : GoString := lit "306"
/-- Constant `WhoisUserReply Command = "311"`. -/
def WhoisUserReply : GoString := lit "311"
/-- Constant `WhoisServerReply Command = "312"`. -/
def WhoisServerReply : GoString := lit "312"
/-- Constant `WhoisOperatorReply Command = "313"`. -/
def WhoisOperatorReply : GoString := lit "313"
/-- Constant `WhoisIdleReply Command = "317"`. -/
def WhoisIdleReply : GoString := lit "317"
/-- Constant `EndOfWhoisReply Command = "318"`. -/
def EndOfWhoisReply : GoString := lit "318"
/-- Constant `WhoisChannelsReply Command = "319"`. -/
def WhoisChannelsReply : GoString := lit "319"
/-- Constant `WhowasUserReply Command = "314"`. -/
def WhowasUserReply : GoString := lit "314"
/-- Constant `EndOfWhowasReply Command = "369"`. -/
def EndOfWhowasReply : GoString := lit "369"
/-- Constant `ListReply Command = "322"`. -/
def ListReply : GoString := lit "322"
/-- Constant `EndOfListReply Command = "323"`. -/
def EndOfListReply : GoString := lit "323"
/-- Constant `UniqueOperatorisReply Command = "325"`. -/
def UniqueOperatorisReply : GoString := lit "325"
/-- Constant `ChannelModeisReply Command = "324"`. -/
def ChannelModeisReply : GoString := lit "324"
/-- Constant `NoTopicReply Command = "331"`. -/
def NoTopicReply : GoString := lit "331"
/-- Constant `TopicReply Command = "332"`. -/
def TopicReply : GoString := lit "332"
/-- Constant `InvitingReply Command = "341"`. -/
def InvitingReply : GoString := lit "341"
/-- Constant `SummoningReply Command = "342"`. -/
def SummoningReply : GoString := lit "342"
/-- Constant `InviteListReply Command = "346"`. -/
def InviteListReply : GoString := lit "346"
/-- Constant `EndOfInviteListReply Command = "347"`. -/
def EndOfInviteListReply : GoString := lit "347"
/-- Constant `ExceptListReply Command = "348"`. -/
def ExceptListReply : GoString := lit "348"
/-- Constant `EndOfExceptListReply Command = "349"`. -/
def EndOfExceptListReply : GoString := lit "349"
/-- Constant `VersionReply Command = "351"`. -/
def VersionReply : GoString := lit "351"
/-- Constant `WhoReply Command = "352"`. -/
def WhoReply : GoString := lit "352"
/-- Constant `EndOfWhoReply Command = "315"`. -/
def EndOfWhoReply : GoString := lit "315"
/-- Constant `NamesReply Command = "353"`. -/
def NamesReply : GoString := lit "353"
/-- Constant `EndOfNamesReply Command = "366"`. -/
def EndOfNamesReply : GoString := lit "366"
/-- Constant `LinksReply Command = "364"`. -/
def LinksReply : GoString := lit "364"
/-- Constant `EndOfLinksReply Command = "365"`. -/
def EndOfLinksReply : GoString := lit "365"
/-- Constant `BanListReply Command = "367"`. -/
def BanListReply : GoString := lit "367"
/-- Constant `EndOfBanListReply Command = "368"`. -/
def EndOfBanListReply : GoString := lit "368"
/-- Constant `InfoReply Command = "371"`. -/
def InfoReply : GoString := lit "371"
/-- Constant `EndOfInfoReply Command = "374"`. -/
def EndOfInfoReply : GoString := lit "374"
/-- Constant `MotdStartReply Command = "375"`. -/
def MotdStartReply : GoString := lit "375"
/-- Constant `MotdReply Command = "372"`. -/
def MotdReply : GoString := lit "372"
/-- Constant `EndOfMotdReply Command = "376"`. -/
def EndOfMotdReply : GoString := lit "376"
/-- Constant `YoureOperatorReply Command = "381"`. -/
def YoureOperatorReply : GoString := lit "381"
/-- Constant `RehashingReply Command = "382"`. -/
def RehashingReply : GoString := lit "382"
/-- Constant `YoureServiceReply Command = "383"`. -/
def YoureServiceReply : GoString := lit "383"
/-- Constant `TimeReply Command = "391"`. -/
def TimeReply : GoString := lit "391"
/-- Constant `UsersStartReply Command = "392"`. -/
def UsersStartReply : GoString := lit "392"
/-- Constant `UsersReply Command = "393"`. -/
def UsersReply : GoString := lit "393"
/-- Constant `EndOfUsersReply Command = "394"`. -/
def EndOfUsersReply : GoString := lit "394"
/-- Constant `NoUsersReply Command = "395"`. -/
def NoUsersReply : GoString := lit "395"
/-- Constant `TraceLinkReply Command = "200"`. -/
def TraceLinkReply : GoString := lit "200"
/-- Constant `TraceConnectingReply Command = "201"`. -/
def TraceConnectingReply : GoString := lit "201"
/-- Constant `TraceHandshakeReply Command = "202"`. -/
def TraceHandshakeReply : GoString := lit "202"
/-- Constant `TraceUnknownReply Command = "203"`. -/
def TraceUnknownReply : GoString := lit "203"
/-- Constant `TraceOperatorReply Command = "204"`. -/
def TraceOperatorReply : GoString := lit "204"
/-- Constant `TraceUserReply Command = "205"`. -/
def TraceUserReply : GoString := lit "205"
/-- Constant `TraceServerReply Command = "206"`. -/
def TraceServerReply : GoString := lit "206"
/-- Constant `TraceServiceReply Command = "207"`. -/
def TraceServiceReply : GoString := lit "207"
/-- Constant `TraceNewTypeReply Command = "208"`. -/
def TraceNewTypeReply : GoString := lit "208"
/-- Constant `TraceClassReply Command = "209"`. -/
def TraceClassReply : GoString := lit "209"
/-- Constant `TraceLogReply Command = "261"`. -/
def TraceLogReply : GoString := lit "261"
/-- Constant `EndOfTraceReply Command = "262"`. -/
def EndOfTraceReply : GoString := lit "262"
/-- Constant `StatsLinkInfoReply Command = "211"`. -/
def StatsLinkInfoReply : GoString := lit "211"
/-- Constant `StatsCommandsReply Command = "212"`. -/
def StatsCommandsReply : GoString := lit "212"
/-- Constant `EndOfStatsReply Command = "219"`. -/
def EndOfStatsReply : GoString := lit "219"
/-- Constant `StatsOlineReply Command = "243"`. -/
def StatsOlineReply : GoString := lit "243"
/-- Constant `UserModeisReply Command = "221"`. -/
def UserModeisReply : GoString := lit "221"
/-- Constant `ServiceListReply Command = "234"`. -/
def ServiceListReply : GoString := lit "234"
/-- Constant `EndOfServiceListReply Command = "235"`. -/
def EndOfServiceListReply : GoString := lit "235"
/-- Constant `ListUsersClientReply Command = "251"`. -/
def ListUsersClientReply : GoString := lit "251"
/-- Constant `ListUsersOperatorReply Command = "252"`. -/
def ListUsersOperatorReply : GoString := lit "252"
/-- Constant `ListUsersUnknownReply Command = "253"`. -/
def ListUsersUnknownReply : GoString := lit "253"
/-- Constant `ListUsersChannelsReply Command = "254"`. -/
def ListUsersChannelsReply : GoString := lit "254"
/-- Constant `ListUsersMeReply Command = "255"`. -/
def ListUsersMeReply : GoString := lit "255"
/-- Constant `AdminMeReply Command = "256"`. -/
def AdminMeReply : GoString := lit "256"
/-- Constant `AdminLoc1Reply Command = "257"`. -/
def AdminLoc1Reply : GoString := lit "257"
/-- Constant `AdminLoc2Reply Command = "258"`. -/
def AdminLoc2Reply : GoString := lit "258"
/-- Constant `AdminEmailReply Command = "259"`. -/
def AdminEmailReply : GoString := lit "259"

/-- Reply commands (the second `const` block). -/
def replyCommands : List GoString :=
  [WelcomeReply, YourHostReply, CreatedReply, MyInfoReply, BounceReply, UserHostReply,
   IsonReply, AwayReply, UnawayReply, NowAwayReply, WhoisUserReply, WhoisServerReply,
   WhoisOperatorReply, WhoisIdleReply, EndOfWhoisReply, WhoisChannelsReply, WhowasUserReply,
   EndOfWhowasReply, ListReply, EndOfListReply, UniqueOperatorisReply, ChannelModeisReply,
   NoTopicReply, TopicReply, InvitingReply, SummoningReply, InviteListReply,
   EndOfInviteListReply, ExceptListReply, EndOfExceptListReply, VersionReply, WhoReply,
   EndOfWhoReply, NamesReply, EndOfNamesReply, LinksReply, EndOfLinksReply, BanListReply,
   EndOfBanListReply, InfoReply, EndOfInfoReply, MotdStartReply, MotdReply, EndOfMotdReply,
   YoureOperatorReply, RehashingReply, YoureServiceReply, TimeReply, UsersStartReply,
   UsersReply, EndOfUsersReply, NoUsersReply, TraceLinkReply, TraceConnectingReply,
   TraceHandshakeReply, TraceUnknownReply, TraceOperatorReply, TraceUserReply,
   TraceServerReply, TraceServiceReply, TraceNewTypeReply, TraceClassReply, TraceLogReply,
   EndOfTraceReply, StatsLinkInfoReply, StatsCommandsReply, EndOfStatsReply, StatsOlineReply,
   UserModeisReply, ServiceListReply, EndOfServiceListReply, ListUsersClientReply,
   ListUsersOperatorReply, ListUsersUnknownReply, ListUsersChannelsReply, ListUsersMeReply,
   AdminMeReply, AdminLoc1Reply, AdminLoc2Reply, AdminEmailReply, TryAgainReply]

/-- Constant `NoSuchNicknameError Command = "401"`. -/
def NoSuchNicknameError : GoString := lit "401"
/-- Constant `NoSuchServerError Command = "402"`. -/
def NoSuchServerError : GoString := lit "402"
/-- Constant `NoSuchChannelError Command = "403"`. -/
def NoSuchChannelError : GoString := lit "403"
/-- Constant `CannotSendToChannelError Command = "404"`. -/
def CannotSendToChannelError : GoString := lit "404"
/-- Constant `TooManyChannelsError Command = "405"`. -/
def TooManyChannelsError : GoString := lit "405"
/-- Constant `WasNoSuchNicknameError Command = "406"`. -/
def WasNoSuchNicknameError : GoString := lit "406"
/-- Constant `TooManyTargetsError Command = "407"`. -/
def TooManyTargetsError : GoString := lit "407"
/-- Constant `NoSuchServiceError Command = "408"`. -/
def NoSuchServiceError : GoString := lit "408"
/-- Constant `NoOriginError Command = "409"`. -/
def NoOriginError : GoString := lit "409"
/-- Constant `NoRecipientError Command = "411"`. -/
def NoRecipientError : GoString := lit "411"
/-- Constant `NoTextToSendError Command = "412"`. -/
def NoTextToSendError : GoString := lit "412"
/-- Constant `NoTopLevelError Command = "413"`. -/
def NoTopLevelError : GoString := lit "413"
/-- Constant `WildcardTopLevelError Command = "414"`. -/
def WildcardTopLevelError : GoString := lit "414"
/-- Constant `BadMaskError Command = "415"`. -/
def BadMaskError : GoString := lit "415"
/-- Constant `UnknownCommandError Command = "421"`. -/
def UnknownCommandError : GoString := lit "421"
/-- Constant `NoMotdError Command = "422"`. -/
def NoMotdError : GoString := lit "422"
/-- Constant `NoAdminInfoError Command = "423"`. -/
def NoAdminInfoError : GoString := lit "423"
/-- Constant `FileError Command = "424"`. -/
def FileError : GoString := lit "424"
/-- Constant `NoNicknameGivenError Command = "431"`. -/
def NoNicknameGivenError : GoString := lit "431"
/-- Constant `ErroneusNicknameError Command = "432"`. -/
def ErroneusNicknameError : GoString := lit "432"
/-- Constant `NicknameInUseError Command = "433"`. -/
def NicknameInUseError : GoString := lit "433"
/-- Constant `NicknameCollisionError Command = "436"`. -/
def NicknameCollisionError : GoString := lit "436"
/-- Constant `UnavailableResourceError Command = "437"`. -/
def UnavailableResourceError : GoString := lit "437"
/-- Constant `UserNotInChannelError Command = "441"`. -/
def UserNotInChannelError : GoString := lit "441"
/-- Constant `NotOnChannelError Command = "442"`. -/
def NotOnChannelError : GoString := lit "442"
/-- Constant `UserOnChannelError Command = "443"`. -/
def UserOnChannelError : GoString := lit "443"
/-- Constant `NoLoginError Command = "444"`. -/
def NoLoginError : GoString := lit "444"
/-- Constant `SummonDisabledError Command = "445"`. -/
def SummonDisabledError : GoString := lit "445"
/-- Constant `UserDisabledError Command = "446"`. -/
def UserDisabledError : GoString := lit "446"
/-- Constant `NotRegisteredError Command = "451"`. -/
def NotRegisteredError : GoString := lit "451"
/-- Constant `NeedMoreParamsError Command = "461"`. -/
def NeedMoreParamsError : GoString := lit "461"
/-- Constant `AlreadyRegisteredError Command = "462"`. -/
def AlreadyRegisteredError : GoString := lit "462"
/-- Constant `NoPermissionForHostError Command = "463"`. -/
def NoPermissionForHostError : GoString := lit "463"
/-- Constant `PasswordMismatchError Command = "464"`. -/
def PasswordMismatchError : GoString := lit "464"
/-- Constant `YoureBannedError Command = "465"`. -/
def YoureBannedError : GoString := lit "465"
/-- Constant `YouWillBeBannedError Command = "466"`. -/
def YouWillBeBannedError : GoString := lit "466"
/-- Constant `KeySetError Command = "467"`. -/
def KeySetError : GoString := lit "467"
/-- Constant `ChannelIsFullError Command = "471"`. -/
def ChannelIsFullError : GoString := lit "471"
/-- Constant `UnknownModeError Command = "472"`. -/
def UnknownModeError : GoString := lit "472"
/-- Constant `InviteOnlyChannelError Command = "473"`. -/
def InviteOnlyChannelError : GoString := lit "473"
/-- Constant `BannedFromChannelError Command = "474"`. -/
def BannedFromChannelError : GoString := lit "474"
/-- Constant `BadChannelKeyError Command = "475"`. -/
def BadChannelKeyError : GoString := lit "475"
/-- Constant `BadChannelMaskError Command = "476"`. -/
def BadChannelMaskError : GoString := lit "476"
/-- Constant `NoChannelModesError Command = "477"`. -/
def NoChannelModesError : GoString := lit "477"
/-- Constant `BanListFullError Command = "478"`. -/
def BanListFullError : GoString := lit "478"
/-- Constant `NoPrivilegesError Command = "481"`. -/
def NoPrivilegesError : GoString := lit "481"
/-- Constant `ChannelOperatorNeededError Command = "482"`. -/
def ChannelOperatorNeededError : GoString := lit "482"
/-- Constant `CannotKillServerError Command = "483"`. -/
def CannotKillServerError : GoString := lit "483"
/-- Constant `RestrictedError Command = "484"`. -/
def RestrictedError : GoString := lit "484"
/-- Constant `UniqueOperatorNeededError Command = "485"`. -/
def UniqueOperatorNeededError : GoString := lit "485"
/-- Constant `NoOperatorHostError Command = "491"`. -/
def NoOperatorHostError : GoString := lit "491"
/-- Constant `UserModeUnknownFlagError Command = "501"`. -/
def UserModeUnknownFlagError : GoString := lit "501"
/-- Constant `UsersDontMatchError Command = "502"`. -/
def UsersDontMatchError : GoString := lit "502"

/-- Error commands (the third `const` block). -/
def errorCommands : List GoString :=
  [NoSuchNicknameError, NoSuchServerError, NoSuchChannelError, CannotSendToChannelError,
   TooManyChannelsError, WasNoSuchNicknameError, TooManyTargetsError, NoSuchServiceError,
   NoOriginError, NoRecipientError, NoTextToSendError, NoTopLevelError, WildcardTopLevelError,
   BadMaskError, UnknownCommandError, NoMotdError, NoAdminInfoError, FileError,
   NoNicknameGivenError, ErroneusNicknameError, NicknameInUseError, NicknameCollisionError,
   UnavailableResourceError, UserNotInChannelError, NotOnChannelError, UserOnChannelError,
   NoLoginError, SummonDisabledError, UserDisabledError, NotRegisteredError,
   NeedMoreParamsError, AlreadyRegisteredError, NoPermissionForHostError,
   PasswordMismatchError, YoureBannedError, YouWillBeBannedError, KeySetError,
   ChannelIsFullError, UnknownModeError, InviteOnlyChannelError, BannedFromChannelError,
   BadChannelKeyError, BadChannelMaskError, NoChannelModesError, BanListFullError,
   NoPrivilegesError, ChannelOperatorNeededError, CannotKillServerError, RestrictedError,
   UniqueOperatorNeededError, NoOperatorHostError, UserModeUnknownFlagError,
   UsersDontMatchError]

/-! ## Wording of the specification

Definitions that follow the text of the specification; the theorems compare
them with the code above. -/

/-- The prefix text of the builder's output format: empty when the nickname is
empty, otherwise `":" + Nickname + ("!" + User if User is non-empty) +
("@" + Host if Host is non-empty) + " "`. -/
def specPrefix (s : Sender) : GoString :=
  if s.Nickname = [] then []
  else
    [COLON] ++ s.Nickname ++ (if s.User = [] then [] else [BANG] ++ s.User)
      ++ (if s.Host = [] then [] else [AT] ++ s.Host) ++ [SP]

/-- The parameter text of the builder's output format: `" " + param` for every
non-last parameter and `" :" + param` for the last one. -/
def specParams : List GoString → GoString
  | [] => []
  | [p] => [SP, COLON] ++ p
  | p :: q :: rest => [SP] ++ p ++ specParams (q :: rest)

/-- The line with one trailing `"\r\n"` or, failing that, one trailing `"\n"`
removed. -/
def stripTerminator (s : GoString) : GoString :=
  if CRLF <:+ s then s.take (s.length - 2)
  else if [LF] <:+ s then s.take (s.length - 1)
  else s

/-- The text before the first `c` of `s` (all of `s` when there is none). -/
def beforeFirst (c : UInt8) (s : GoString) : GoString := s.takeWhile (· != c)

/-- The text after the first `c` of `s` (empty when there is none). -/
def afterFirst (c : UInt8) (s : GoString) : GoString := (s.dropWhile (· != c)).drop 1

/-- The wire text of a list of middle parameters, each followed by one
space. -/
def midParams (ps : List GoString) : GoString := (ps.map fun p => p ++ [SP]).flatten

/-- The parameters that the specification assigns to a remainder `r` without
trailing parameter: `r` split at every single space, except that an empty `r`
has no parameters and that the final empty token is dropped when `r` ends with
a space. -/
def specTokens (r : GoString) : List GoString :=
  if r = [] then []
  else if r.getLast? = some SP then (r.splitOn SP).dropLast
  else r.splitOn SP

/-- The failure condition of the specification on a stripped, non-empty
line `L`: either (a) `L` starts with `':'` and the text after that `':'`
contains no space, or starts with a space, or has nothing after its first
space, or has a space immediately after its first space; or (b) `L` does not
start with `':'` and starts with a space. -/
def specInvalid (L : GoString) : Prop :=
  (L.head? = some COLON ∧
    (SP ∉ L.tail ∨ L.tail.head? = some SP ∨ afterFirst SP L.tail = [] ∨
      (afterFirst SP L.tail).head? = some SP))
  ∨ (L.head? ≠ some COLON ∧ L.head? = some SP)

instance specInvalid.decidable (L : GoString) : Decidable (specInvalid L) := by
  unfold specInvalid
  infer_instance

/-- The sender that the prefix text `p` denotes: `Host` is the text after the
first `'@'`, `Nickname` and `User` are the parts of the text before that `'@'`
split at its first `'!'`. -/
def senderOf (p : GoString) : Sender :=
  ⟨beforeFirst BANG (beforeFirst AT p), afterFirst BANG (beforeFirst AT p), afterFirst AT p⟩

/-- One write issued to a `builder`: `WriteByte(c)` or `WriteString(s)`. -/
inductive WriteOp where
  | byte (c : UInt8)
  | string (s : GoString)
deriving DecidableEq, Repr

/-- The bytes that a write hands to the sink. -/
def WriteOp.bytes : WriteOp → GoString
  | .byte c => [c]
  | .string s => s

/-- Issue one write to a sink. -/
def builder.issue {σ : Type} (b : builder σ) (s : σ) : WriteOp → σ × Option Error
  | .byte c => b.WriteByte s c
  | .string t => b.WriteString s t

/-- Issue a list of writes in order; the first write that reports an error
ends the run and no further write is issued. -/
def builder.issueAll {σ : Type} (b : builder σ) : List WriteOp → σ → σ × Option Error
  | [], s => (s, none)
  | op :: ops, s =>
    match b.issue s op with
    | (s, none) => builder.issueAll b ops s
    | (s, some e) => (s, some e)

/-- The writes for the parameters in the builder's format: a space before each
parameter and a `':'` right before the last one. -/
def specParamWrites : List GoString → List WriteOp
  | [] => []
  | [p] => [.byte SP, .byte COLON, .string p]
  | p :: q :: rest => [.byte SP, .string p] ++ specParamWrites (q :: rest)

/-- The writes that the builder's format prescribes for a message, in order:
the prefix when the nickname is non-empty, the command, the parameters, the
line terminator. -/
def specWrites (m : Message) : List WriteOp :=
  (if m.Sender.Nickname = [] then []
    else
      [.byte COLON, .string m.Sender.Nickname]
        ++ (if m.Sender.User = [] then [] else [.byte BANG, .string m.Sender.User])
        ++ (if m.Sender.Host = [] then [] else [.byte AT, .string m.Sender.Host])
        ++ [.byte SP])
    ++ [.string m.Command] ++ specParamWrites m.Params ++ [.string CRLF]

/-- A sink that records the writes it receives; the write issued when `failAt`
writes have been recorded is recorded too and reports the error `err`. -/
def recordingSink (failAt : Nat) (err : Error) : builder (List WriteOp) where
  WriteByte := fun log c =>
    (log ++ [.byte c], if log.length = failAt then some err else none)
  WriteString := fun log t =>
    (log ++ [.string t], if log.length = failAt then some err else none)

/-! ## Builder: lemmas -/

@[simp] theorem andThen_ok {σ : Type} (s : σ) (k : σ → σ × Option Error) :
    andThen (s, none) k = k s := rfl

@[simp] theorem andThen_err {σ : Type} (s : σ) (e : Error) (k : σ → σ × Option Error) :
    andThen (s, some e) k = (s, some e) := rfl

@[simp] theorem stringsBuilder_WriteByte (s : GoString) (c : UInt8) :
    stringsBuilder.WriteByte s c = (s ++ [c], none) := rfl

@[simp] theorem stringsBuilder_WriteString (s t : GoString) :
    stringsBuilder.WriteString s t = (s ++ t, none) := rfl

/-- On a `strings.Builder` the parameter loop appends `specParams`. -/
theorem buildParams_stringsBuilder (n : Nat) (ps : List GoString) :
    ∀ (i : Nat) (s : GoString), i + ps.length = n →
      Message.buildParams stringsBuilder n i ps s = (s ++ specParams ps, none) := by
  induction ps with
  | nil => intro i s _; simp [Message.buildParams, specParams]
  | cons p rest ih =>
    intro i s h
    cases rest with
    | nil =>
      have hi : i = n - 1 := by simp at h; omega
      simp [Message.buildParams, specParams, hi]
    | cons q rest =>
      have hi : i ≠ n - 1 := by simp at h; omega
      have hrec := ih (i + 1) (s ++ [SP] ++ p) (by simp at h ⊢; omega)
      simp only [Message.buildParams, stringsBuilder_WriteByte, andThen_ok, if_neg hi,
        stringsBuilder_WriteString] at hrec ⊢
      rw [hrec]
      simp [specParams]

theorem specParams_append_last (ps : List GoString) (p : GoString) :
    specParams (ps ++ [p]) = (ps.map fun q => [SP] ++ q).flatten ++ ([SP, COLON] ++ p) := by
  induction ps with
  | nil => rfl
  | cons q rest ih =>
    cases rest with
    | nil => simp [specParams]
    | cons r rest =>
      rw [show (q :: r :: rest) ++ [p] = q :: r :: (rest ++ [p]) from rfl, specParams,
        show r :: (rest ++ [p]) = (r :: rest) ++ [p] from rfl, ih]
      simp

/-- The output of `String()` in the format of the specification. -/
theorem String_eq (m : Message) :
    m.String = specPrefix m.Sender ++ m.Command ++ specParams m.Params ++ CRLF := by
  unfold Message.String Message.build
  have hlen : ∀ l : GoString, (l.length > 0) = (l ≠ []) := by
    intro l; cases l <;> simp
  by_cases hn : m.Sender.Nickname = []
  · simp [hn, specPrefix, buildParams_stringsBuilder]
  · by_cases hu : m.Sender.User = [] <;> by_cases hh : m.Sender.Host = [] <;>
      simp [hn, hu, hh, hlen, specPrefix, buildParams_stringsBuilder]

/-! ## Parser: lemmas -/

theorem IndexByte_of_not_mem (s : GoString) (c : UInt8) (h : c ∉ s) : IndexByte s c = -1 := by
  induction s with
  | nil => rfl
  | cons x xs ih =>
    simp only [List.mem_cons, not_or] at h
    have hx : ¬ x = c := fun e => h.1 e.symm
    simp [IndexByte, hx, ih h.2]

theorem IndexByte_append (a b : GoString) (c : UInt8) (h : c ∉ a) :
    IndexByte (a ++ c :: b) c = a.length := by
  induction a with
  | nil => simp [IndexByte]
  | cons x xs ih =>
    simp only [List.mem_cons, not_or] at h
    have hx : ¬ x = c := fun e => h.1 e.symm
    have ih2 := ih h.2
    simp only [List.cons_append, IndexByte, hx, if_false, ih2]
    simp
    omega

theorem split_of_not_mem (a : GoString) (sep : UInt8) (h : sep ∉ a) : split a sep = (a, []) := by
  simp [split, IndexByte_of_not_mem a sep h]

theorem split_append (a b : GoString) (sep : UInt8) (h : sep ∉ a) :
    split (a ++ sep :: b) sep = (a, b) := by
  simp [split, IndexByte_append a b sep h]

theorem index_cons (c : UInt8) (s : GoString) : index (c :: s) 0 = .ok c := rfl

theorem index_nil (i : Nat) : index [] i = .error .indexOutOfRange := rfl

theorem index_last (s : GoString) (c : UInt8) : index (s ++ [c]) ((s ++ [c]).length - 1) = .ok c := by
  simp [index]

theorem HasSuffix_CRLF_iff (s : GoString) : HasSuffix s CRLF = true ↔ ∃ t, s = t ++ CRLF := by
  constructor
  · intro h
    simp only [HasSuffix, Bool.and_eq_true, decide_eq_true_eq, beq_iff_eq] at h
    refine ⟨s.take (s.length - CRLF.length), ?_⟩
    conv_lhs => rw [← List.take_append_drop (s.length - CRLF.length) s]
    rw [h.2]
  · rintro ⟨t, rfl⟩
    simp [HasSuffix]

theorem split_eq (s : GoString) (c : UInt8) : split s c = (beforeFirst c s, afterFirst c s) := by
  unfold beforeFirst afterFirst
  by_cases h : c ∈ s
  · have hdw : ∃ b, s.dropWhile (· != c) = c :: b := by
      induction s with
      | nil => simp at h
      | cons x xs ih =>
        by_cases hx : x = c
        · exact ⟨xs, by simp [List.dropWhile, hx]⟩
        · have : c ∈ xs := by
            rcases List.mem_cons.1 h with e | e
            · exact absurd e.symm hx
            · exact e
          obtain ⟨b, hb⟩ := ih this
          exact ⟨b, by rw [List.dropWhile_cons_of_pos (by simpa using hx), hb]⟩
    obtain ⟨b, hb⟩ := hdw
    have hnot : c ∉ s.takeWhile (· != c) := by
      intro hc
      have := List.mem_takeWhile_imp hc
      simp at this
    have hs : s = s.takeWhile (· != c) ++ c :: b := by
      rw [← hb, List.takeWhile_append_dropWhile]
    conv_lhs => rw [hs]
    rw [split_append _ _ _ hnot, hb]
    rfl
  · have htw : s.takeWhile (· != c) = s := by
      rw [List.takeWhile_eq_self_iff]
      intro x hx
      simp only [bne_iff_ne, ne_eq]
      rintro rfl
      exact h hx
    have hdw : s.dropWhile (· != c) = [] := by
      rw [List.dropWhile_eq_nil_iff]
      intro x hx
      simp only [bne_iff_ne, ne_eq]
      rintro rfl
      exact h hx
    rw [split_of_not_mem _ _ h, htw, hdw]
    rfl

@[simp] theorem Except_ok_bind {α β : Type} (a : α) (f : α → Except Abort β) :
    (Except.ok a >>= f) = f a := rfl

@[simp] theorem Except_error_bind {α β : Type} (e : Abort) (f : α → Except Abort β) :
    (Except.error e >>= f) = Except.error e := rfl

theorem NewMessage_eq_line (s : GoString) (h : s ≠ []) :
    NewMessage s = NewMessage.line Message.zero (stripTerminator s) := by
  have hlen : s.length ≠ 0 := by simpa using h
  unfold NewMessage stripTerminator
  simp only [hlen, if_false]
  by_cases hs : HasSuffix s CRLF = true
  · have hsuf : CRLF <:+ s := by
      obtain ⟨t, rfl⟩ := (HasSuffix_CRLF_iff s).1 hs
      exact List.suffix_append _ _
    simp [hs, hsuf]
  · have hsuf : ¬ CRLF <:+ s := by
      rintro ⟨t, rfl⟩
      exact hs ((HasSuffix_CRLF_iff _).2 ⟨t, rfl⟩)
    simp only [hs, hsuf, if_false]
    obtain ⟨t, c, rfl⟩ : ∃ t c, s = t ++ [c] :=
      ⟨s.dropLast, s.getLast h, (List.dropLast_append_getLast h).symm⟩
    rw [index_last]
    by_cases hc : c = LF
    · subst hc
      have : [LF] <:+ t ++ [LF] := List.suffix_append _ _
      simp [hs, hsuf, this]
    · have : ¬ [LF] <:+ t ++ [c] := by
        rintro ⟨u, hu⟩
        have h2 := congrArg List.getLast? hu
        simp at h2
        exact hc h2.symm
      simp [hs, hsuf, this, hc]

theorem stripTerminator_append_CRLF (L : GoString) : stripTerminator (L ++ CRLF) = L := by
  have : CRLF <:+ L ++ CRLF := List.suffix_append _ _
  simp [stripTerminator, this]

theorem not_suffix_of_getLast (L : GoString) (c : UInt8) (t : GoString)
    (h : L.getLast? ≠ some c) : ¬ (t ++ [c]) <:+ L := by
  rintro ⟨u, hu⟩
  apply h
  rw [← hu, ← List.append_assoc]
  simp

theorem stripTerminator_of_ne_LF (L : GoString) (h : L.getLast? ≠ some LF) :
    stripTerminator L = L := by
  have h1 : ¬ CRLF <:+ L := not_suffix_of_getLast L LF [CR] h
  have h2 : ¬ [LF] <:+ L := not_suffix_of_getLast L LF [] h
  simp [stripTerminator, h1, h2]

theorem stripTerminator_append_LF (L : GoString) (h : L.getLast? ≠ some CR) :
    stripTerminator (L ++ [LF]) = L := by
  have h1 : ¬ CRLF <:+ L ++ [LF] := by
    rintro ⟨u, hu⟩
    have h3 : u ++ [CR] = L := by
      have : (u ++ [CR]) ++ [LF] = L ++ [LF] := by simpa using hu
      exact List.append_cancel_right this
    apply h
    rw [← h3]
    simp
  have h2 : [LF] <:+ L ++ [LF] := List.suffix_append _ _
  simp [stripTerminator, h1, h2]

theorem index_zero_of_head (s : GoString) (c : UInt8) (h : s.head? = some c) :
    index s 0 = .ok c := by
  cases s with
  | nil => simp at h
  | cons x xs => simp at h; subst h; rfl

theorem params_nil (fuel : Nat) (acc : List GoString) :
    NewMessage.params fuel [] acc = .ok acc := by
  cases fuel <;> simp [NewMessage.params]

theorem head_append_SP (p x : GoString) (h : p.head? ≠ some COLON) :
    ∃ c, (p ++ SP :: x).head? = some c ∧ c ≠ COLON := by
  cases p with
  | nil => exact ⟨SP, rfl, by decide⟩
  | cons a p => exact ⟨a, rfl, fun e => h (by simp [e])⟩

/-- The parameter loop on middle parameters followed by a trailing one. -/
theorem params_trailing (t : GoString) :
    ∀ (ps : List GoString) (acc : List GoString) (fuel : Nat),
      (∀ p ∈ ps, SP ∉ p ∧ p.head? ≠ some COLON) →
      (midParams ps ++ COLON :: t).length ≤ fuel →
      NewMessage.params fuel (midParams ps ++ COLON :: t) acc = .ok (acc ++ ps ++ [t]) := by
  intro ps
  induction ps with
  | nil =>
    intro acc fuel _ hf
    cases fuel with
    | zero => simp [midParams] at hf
    | succ f => simp [NewMessage.params, midParams, index_cons]
  | cons p rest ih =>
    intro acc fuel hps hf
    have hp := hps p (List.mem_cons_self _ _)
    have hin : midParams (p :: rest) ++ COLON :: t = p ++ SP :: (midParams rest ++ COLON :: t) := by
      simp [midParams]
    rw [hin] at hf ⊢
    cases fuel with
    | zero => simp at hf
    | succ f =>
      obtain ⟨c, hc, hne⟩ := head_append_SP p (midParams rest ++ COLON :: t) hp.2
      have hrec := ih (acc ++ [p]) f (fun q hq => hps q (List.mem_cons_of_mem _ hq))
        (by simp at hf ⊢; omega)
      simp only [NewMessage.params]
      rw [index_zero_of_head _ c hc, split_append _ _ _ hp.1]
      simp [hne, hrec]

theorem specParams_concat (ps : List GoString) (t : GoString) :
    specParams (ps ++ [t]) = SP :: (midParams ps ++ COLON :: t) := by
  induction ps with
  | nil => rfl
  | cons q rest ih =>
    cases rest with
    | nil => simp [specParams, midParams]
    | cons r rest =>
      rw [show (q :: r :: rest) ++ [t] = q :: r :: (rest ++ [t]) from rfl, specParams,
        show r :: (rest ++ [t]) = (r :: rest) ++ [t] from rfl, ih]
      simp [midParams]

/-- The command block on a command followed by the wire text of a parameter
list whose non-last elements are middle parameters. -/
theorem command_specParams (msg : Message) (c : GoString) (params : List GoString)
    (hc : c ≠ []) (hsp : SP ∉ c)
    (hps : ∀ p ∈ params.dropLast, SP ∉ p ∧ p.head? ≠ some COLON) :
    NewMessage.command msg (c ++ specParams params) =
      .ok ({ msg with Command := c, Params := msg.Params ++ params }, none) := by
  have hlen : c.length ≠ 0 := by simpa using hc
  rcases List.eq_nil_or_concat params with rfl | ⟨ps, t, rfl⟩
  · simp [NewMessage.command, specParams, split_of_not_mem c SP hsp, hlen, params_nil]
  · rw [List.concat_eq_append] at hps ⊢
    rw [List.dropLast_concat] at hps
    rw [specParams_concat]
    unfold NewMessage.command
    rw [split_append _ _ _ hsp]
    simp only [hlen, if_false]
    rw [params_trailing t ps msg.Params _ hps (le_refl _)]
    simp

theorem line_of_head (msg : Message) (L : GoString) (c : UInt8) (h : L.head? = some c)
    (hc : c ≠ COLON) : NewMessage.line msg L = NewMessage.command msg L := by
  unfold NewMessage.line
  rw [index_zero_of_head L c h]
  simp [hc]

theorem line_colon (msg : Message) (pfx rest : GoString) (h1 : SP ∉ pfx) (h2 : pfx ≠ [])
    (h3 : rest ≠ []) :
    NewMessage.line msg (COLON :: (pfx ++ SP :: rest)) =
      NewMessage.command
        { msg with Sender := ⟨(split (split pfx AT).1 BANG).1, (split (split pfx AT).1 BANG).2,
            (split pfx AT).2⟩ } rest := by
  unfold NewMessage.line
  rw [index_cons]
  simp only [Except_ok_bind, if_true, List.drop_one, List.tail_cons]
  rw [split_append _ _ _ h1]
  simp [h2, h3]

/-- Splitting the prefix text `nick[!user][@host]`. -/
theorem split_sender_text (a b c : GoString) (ha1 : BANG ∉ a) (ha2 : AT ∉ a) (hb : AT ∉ b) :
    split (a ++ (if b = [] then [] else [BANG] ++ b) ++ (if c = [] then [] else [AT] ++ c)) AT
        = (a ++ (if b = [] then [] else [BANG] ++ b), c)
    ∧ split (a ++ (if b = [] then [] else [BANG] ++ b)) BANG = (a, b) := by
  have hne : ¬ AT = BANG := by decide
  have hab : AT ∉ a ++ (if b = [] then [] else [BANG] ++ b) := by
    by_cases h : b = [] <;> simp [h, ha2, hb, hne]
  constructor
  · by_cases h : c = []
    · simp only [h, if_true, List.append_nil]
      exact split_of_not_mem _ _ hab
    · simp only [h, if_false, List.singleton_append]
      exact split_append _ _ _ hab
  · by_cases h : b = []
    · simp only [h, if_true, List.append_nil]
      exact split_of_not_mem _ _ ha1
    · simp only [h, if_false, List.singleton_append]
      exact split_append _ _ _ ha1

/-- Round trip for well-formed messages: parsing the built line gives the
message back. -/
theorem parse_build (m : Message)
    (hc1 : m.Command ≠ []) (hc2 : SP ∉ m.Command)
    (hn : m.Sender.Nickname = [] →
      m.Sender.User = [] ∧ m.Sender.Host = [] ∧ m.Command.head? ≠ some COLON)
    (hnick : SP ∉ m.Sender.Nickname ∧ BANG ∉ m.Sender.Nickname ∧ AT ∉ m.Sender.Nickname)
    (huser : SP ∉ m.Sender.User ∧ AT ∉ m.Sender.User)
    (hhost : SP ∉ m.Sender.Host)
    (hps : ∀ p ∈ m.Params.dropLast, SP ∉ p ∧ p.head? ≠ some COLON) :
    NewMessage m.String = .ok (m, none) := by
  obtain ⟨⟨nick, user, host⟩, cmd, params⟩ := m
  simp only at hc1 hc2 hn hnick huser hhost hps
  rw [String_eq, NewMessage_eq_line _ (by simp), stripTerminator_append_CRLF]
  simp only
  by_cases hnk : nick = []
  · obtain ⟨hu, hh, hcol⟩ := hn hnk
    subst hnk hu hh
    obtain ⟨c0, hc0⟩ : ∃ c0, cmd.head? = some c0 := by
      cases cmd with
      | nil => exact absurd rfl hc1
      | cons x xs => exact ⟨x, rfl⟩
    have hhead : (specPrefix ⟨[], [], []⟩ ++ cmd ++ specParams params).head? = some c0 := by
      cases cmd with
      | nil => exact absurd rfl hc1
      | cons x xs => simpa [specPrefix] using hc0
    rw [line_of_head _ _ c0 hhead (fun e => hcol (by rw [hc0, e]))]
    simp only [specPrefix, if_true, List.nil_append]
    rw [command_specParams _ cmd params hc1 hc2 hps]
    simp [Message.zero]
  · have hcmd : cmd ++ specParams params ≠ [] := by simp [hc1]
    have hpfx : specPrefix ⟨nick, user, host⟩ ++ cmd ++ specParams params =
        COLON :: ((nick ++ (if user = [] then [] else [BANG] ++ user)
          ++ (if host = [] then [] else [AT] ++ host)) ++ SP :: (cmd ++ specParams params)) := by
      simp [specPrefix, hnk]
    have hsp : SP ∉ nick ++ (if user = [] then [] else [BANG] ++ user)
          ++ (if host = [] then [] else [AT] ++ host) := by
      have e1 : ¬ SP = BANG := by decide
      have e2 : ¬ SP = AT := by decide
      by_cases hu : user = [] <;> by_cases hh : host = [] <;>
        simp [hu, hh, hnick.1, huser.1, hhost, e1, e2]
    have hne : nick ++ (if user = [] then [] else [BANG] ++ user)
          ++ (if host = [] then [] else [AT] ++ host) ≠ [] := by simp [hnk]
    obtain ⟨hs1, hs2⟩ := split_sender_text nick user host hnick.2.1 hnick.2.2 huser.2
    rw [hpfx, line_colon _ _ _ hsp hne hcmd, hs1]
    simp only
    rw [hs2, command_specParams _ cmd params hc1 hc2 hps]
    simp [Message.zero]

theorem lit_263 : lit "263" = [0x32, 0x36, 0x33] := by decide

/-- A line `":" + pfx + " " + cmd + "\r\n"`: the sender is obtained by the two
splits of the prefix. -/
theorem NewMessage_prefix_command (pfx cmd : GoString) (h1 : pfx ≠ []) (h2 : SP ∉ pfx)
    (h3 : cmd ≠ []) (h4 : SP ∉ cmd) :
    NewMessage ([COLON] ++ pfx ++ [SP] ++ cmd ++ CRLF) =
      .ok (⟨⟨(split (split pfx AT).1 BANG).1, (split (split pfx AT).1 BANG).2,
        (split pfx AT).2⟩, cmd, []⟩, none) := by
  have e : [COLON] ++ pfx ++ [SP] ++ cmd ++ CRLF = (COLON :: (pfx ++ SP :: cmd)) ++ CRLF := by
    simp
  rw [e, NewMessage_eq_line _ (by simp), stripTerminator_append_CRLF,
    line_colon _ _ _ h2 h1 h3]
  have := command_specParams
    { Message.zero with Sender := ⟨(split (split pfx AT).1 BANG).1,
        (split (split pfx AT).1 BANG).2, (split pfx AT).2⟩ } cmd [] h3 h4 (by simp)
  simpa [specParams, Message.zero] using this

theorem splitOn_of_not_mem (r : GoString) (h : SP ∉ r) : r.splitOn SP = [r] := by
  unfold List.splitOn
  apply List.splitOnP_eq_single
  intro x hx
  simp only [beq_iff_eq]
  rintro rfl
  exact h hx

theorem splitOn_append (a b : GoString) (h : SP ∉ a) :
    (a ++ SP :: b).splitOn SP = a :: b.splitOn SP := by
  unfold List.splitOn
  apply List.splitOnP_first
  · intro x hx
    simp only [beq_iff_eq]
    rintro rfl
    exact h hx
  · simp

theorem specTokens_of_not_mem (r : GoString) (hr : r ≠ []) (h : SP ∉ r) :
    specTokens r = [r] := by
  have hl : r.getLast? ≠ some SP := by
    intro e
    exact h (List.mem_of_getLast?_eq_some e)
  simp [specTokens, hr, hl, splitOn_of_not_mem r h]

theorem specTokens_append (a b : GoString) (h : SP ∉ a) :
    specTokens (a ++ SP :: b) = a :: specTokens b := by
  have hne : b.splitOn SP ≠ [] := List.splitOnP_ne_nil _ _
  by_cases hb : b = []
  · subst hb
    simp [specTokens, splitOn_append a [] h]
  · have hl : (a ++ SP :: b).getLast? = b.getLast? := by
      rw [List.getLast?_append]
      cases hbl : b.getLast? with
      | none => simp [List.getLast?_eq_none_iff] at hbl; exact absurd hbl hb
      | some z => simp [List.getLast?_cons_cons, hbl, List.getLast?_cons, hb]
    simp only [specTokens, hl, hb, splitOn_append a b h]
    by_cases hs : b.getLast? = some SP
    · simp [hs, List.dropLast_cons_of_ne_nil hne]
    · simp [hs]

/-- The parameter loop on a remainder without trailing parameter. -/
theorem params_tokens :
    ∀ (fuel : Nat) (r : GoString) (acc : List GoString),
      r.length ≤ fuel → r.head? ≠ some COLON → ¬ [SP, COLON] <:+: r →
      NewMessage.params fuel r acc = .ok (acc ++ specTokens r) := by
  intro fuel
  induction fuel with
  | zero =>
    intro r acc hf _ _
    have : r = [] := by simpa using hf
    subst this
    simp [NewMessage.params, specTokens]
  | succ f ih =>
    intro r acc hf h1 h2
    cases r with
    | nil => simp [NewMessage.params, specTokens]
    | cons x xs =>
      have hx : x ≠ COLON := fun e => h1 (by simp [e])
      simp only [NewMessage.params, List.length_cons, gt_iff_lt, Nat.zero_lt_succ, if_true,
        index_cons, Except_ok_bind, if_neg hx]
      by_cases hm : SP ∈ x :: xs
      · obtain ⟨a, b, hab, ha⟩ := List.eq_append_cons_of_mem hm
        rw [hab, split_append a b SP ha]
        simp only
        have hlen : b.length ≤ f := by
          have := congrArg List.length hab
          simp at this hf
          omega
        have hb1 : b.head? ≠ some COLON := by
          intro e
          apply h2
          cases b with
          | nil => simp at e
          | cons y ys =>
            simp at e
            subst e
            rw [hab]
            exact ⟨a, ys, by simp⟩
        have hb2 : ¬ [SP, COLON] <:+: b := by
          intro e
          apply h2
          rw [hab]
          exact e.trans ⟨a ++ [SP], [], by simp⟩
        rw [ih b (acc ++ [a]) hlen hb1 hb2, specTokens_append a b ha]
        simp
      · rw [split_of_not_mem _ SP hm]
        simp only
        rw [params_nil, specTokens_of_not_mem _ (by simp) hm]

theorem afterFirst_length_le (c : UInt8) (s : GoString) :
    (afterFirst c s).length ≤ s.length - 1 := by
  unfold afterFirst
  have h : (s.dropWhile fun x => x != c).length ≤ s.length :=
    List.Sublist.length_le (List.dropWhile_sublist _)
  simp only [List.length_drop]
  omega

theorem afterFirst_of_not_mem (c : UInt8) (s : GoString) (h : c ∉ s) : afterFirst c s = [] := by
  have := split_of_not_mem s c h
  rw [split_eq] at this
  exact (Prod.mk.inj this).2

theorem beforeFirst_eq_nil_iff (c : UInt8) (s : GoString) :
    beforeFirst c s = [] ↔ s = [] ∨ s.head? = some c := by
  unfold beforeFirst
  cases s with
  | nil => simp
  | cons x xs =>
    by_cases hx : x = c
    · rw [List.takeWhile_cons_of_neg (by simpa using hx)]
      simp [hx]
    · rw [List.takeWhile_cons_of_pos (by simpa using hx)]
      simp [hx]

/-- The parameter loop returns for every input when the fuel is at least the
length of the input. -/
theorem params_total :
    ∀ (fuel : Nat) (input : GoString) (acc : List GoString), input.length ≤ fuel →
      ∃ ps, NewMessage.params fuel input acc = .ok ps := by
  intro fuel
  induction fuel with
  | zero =>
    intro input acc hf
    have : input = [] := by simpa using hf
    subst this
    exact ⟨acc, params_nil 0 acc⟩
  | succ f ih =>
    intro input acc hf
    cases input with
    | nil => exact ⟨acc, params_nil _ acc⟩
    | cons x xs =>
      simp only [NewMessage.params, List.length_cons, gt_iff_lt, Nat.zero_lt_succ, if_true,
        index_cons, Except_ok_bind]
      by_cases hx : x = COLON
      · exact ⟨_, by rw [if_pos hx]⟩
      · simp only [if_neg hx, split_eq]
        apply ih
        have := afterFirst_length_le SP (x :: xs)
        simp at this hf
        omega

theorem command_invalid (msg : Message) (input : GoString) (h : beforeFirst SP input = []) :
    NewMessage.command msg input = .ok (msg, some .ErrInvalidMessage) := by
  simp [NewMessage.command, split_eq, h]

theorem command_valid (msg : Message) (input : GoString) (h : beforeFirst SP input ≠ []) :
    ∃ ps, NewMessage.command msg input =
      .ok ({ msg with Command := beforeFirst SP input, Params := ps }, none) := by
  obtain ⟨ps, hps⟩ := params_total (afterFirst SP input).length (afterFirst SP input)
    msg.Params (le_refl _)
  refine ⟨ps, ?_⟩
  simp [NewMessage.command, split_eq, h, hps]

/-- On a non-empty stripped line the parser fails with `ErrInvalidMessage`
exactly under `specInvalid`, and succeeds otherwise. -/
theorem line_cases (L : GoString) (hL : L ≠ []) :
    (specInvalid L → ∃ m, NewMessage.line Message.zero L = .ok (m, some .ErrInvalidMessage))
    ∧ (¬ specInvalid L → ∃ m, NewMessage.line Message.zero L = .ok (m, none)) := by
  cases L with
  | nil => exact absurd rfl hL
  | cons x rest =>
    have hsp : ¬ COLON = SP := by decide
    by_cases hx : x = COLON
    · subst hx
      have hline : NewMessage.line Message.zero (COLON :: rest) =
          if (afterFirst SP rest).length = 0 ∨ (beforeFirst SP rest).length = 0 then
            .ok (Message.zero, some .ErrInvalidMessage)
          else
            NewMessage.command
              { Message.zero with Sender :=
                  ⟨(split (split (beforeFirst SP rest) AT).1 BANG).1,
                   (split (split (beforeFirst SP rest) AT).1 BANG).2,
                   (split (beforeFirst SP rest) AT).2⟩ } (afterFirst SP rest) := by
        simp [NewMessage.line, index_cons, split_eq rest SP]
      have hinv : specInvalid (COLON :: rest) ↔
          (afterFirst SP rest = [] ∨ beforeFirst SP rest = []
            ∨ beforeFirst SP (afterFirst SP rest) = []) := by
        simp only [specInvalid, List.head?_cons, List.tail_cons, true_and, ne_eq,
          not_true_eq_false, false_and, or_false, beforeFirst_eq_nil_iff]
        constructor
        · rintro (h | h | h | h)
          · exact Or.inl (afterFirst_of_not_mem _ _ h)
          · exact Or.inr (Or.inl (Or.inr h))
          · exact Or.inl h
          · exact Or.inr (Or.inr (Or.inr h))
        · rintro (h | (h | h) | (h | h))
          · exact Or.inr (Or.inr (Or.inl h))
          · subst h
            exact Or.inl (by simp)
          · exact Or.inr (Or.inl h)
          · exact Or.inr (Or.inr (Or.inl h))
          · exact Or.inr (Or.inr (Or.inr h))
      rw [hline, hinv]
      constructor
      · rintro (h | h | h)
        · exact ⟨Message.zero, by simp [h]⟩
        · exact ⟨Message.zero, by simp [h]⟩
        · by_cases h' : (afterFirst SP rest).length = 0 ∨ (beforeFirst SP rest).length = 0
          · exact ⟨_, by rw [if_pos h']⟩
          · rw [if_neg h']
            exact ⟨_, command_invalid _ _ h⟩
      · intro h
        simp only [not_or] at h
        have h' : ¬ ((afterFirst SP rest).length = 0 ∨ (beforeFirst SP rest).length = 0) := by
          simp [h.1, h.2.1]
        rw [if_neg h']
        obtain ⟨ps, hps⟩ := command_valid
          { Message.zero with Sender :=
              ⟨(split (split (beforeFirst SP rest) AT).1 BANG).1,
               (split (split (beforeFirst SP rest) AT).1 BANG).2,
               (split (beforeFirst SP rest) AT).2⟩ } (afterFirst SP rest) h.2.2
        exact ⟨_, hps⟩
    · have hline := line_of_head Message.zero (x :: rest) x rfl hx
      have hinv : specInvalid (x :: rest) ↔ beforeFirst SP (x :: rest) = [] := by
        simp [specInvalid, beforeFirst_eq_nil_iff, hx]
      rw [hline, hinv]
      constructor
      · intro h
        exact ⟨_, command_invalid _ _ h⟩
      · intro h
        obtain ⟨ps, hps⟩ := command_valid Message.zero (x :: rest) h
        exact ⟨_, hps⟩

/-- The parameter loop on a run of `k` spaces followed by a word: one empty
parameter for each space. -/
theorem params_spaces (v : GoString) (hv1 : SP ∉ v) (hv2 : v ≠ []) (hv3 : v.head? ≠ some COLON) :
    ∀ (k : Nat) (acc : List GoString) (fuel : Nat),
      (List.replicate k SP ++ v).length ≤ fuel →
      NewMessage.params fuel (List.replicate k SP ++ v) acc
        = .ok (acc ++ List.replicate k [] ++ [v]) := by
  intro k
  induction k with
  | zero =>
    intro acc fuel hf
    have := params_tokens fuel v acc (by simpa using hf) hv3
      (fun ⟨a, b, hab⟩ => hv1 (by rw [← hab]; simp))
    simpa [specTokens_of_not_mem v hv2 hv1] using this
  | succ k ih =>
    intro acc fuel hf
    cases fuel with
    | zero => simp at hf
    | succ f =>
      have e : List.replicate (k + 1) SP ++ v = [] ++ SP :: (List.replicate k SP ++ v) := by
        simp [List.replicate_succ]
      have hrec := ih (acc ++ [[]]) f (by simp at hf ⊢; omega)
      rw [e]
      simp only [NewMessage.params]
      rw [split_append [] _ SP (by simp)]
      simp only [List.nil_append, index_cons, Except_ok_bind]
      rw [hrec]
      have hne : ¬ SP = COLON := by decide
      simp [List.replicate_succ, hne]

/-- The parser never runs out of fuel: it either returns, or panics on the
index expression `input[0]` (which happens exactly when the stripped line is
empty). -/
theorem NewMessage_returns_or_panics (s : GoString) :
    (∃ m e, NewMessage s = .ok (m, e)) ∨ NewMessage s = .error .indexOutOfRange := by
  by_cases hs : s = []
  · subst hs
    exact Or.inl ⟨Message.zero, some .ErrInvalidMessage, rfl⟩
  · rw [NewMessage_eq_line s hs]
    by_cases hL : stripTerminator s = []
    · rw [hL]
      exact Or.inr rfl
    · obtain ⟨h1, h2⟩ := line_cases (stripTerminator s) hL
      by_cases hi : specInvalid (stripTerminator s)
      · obtain ⟨m, hm⟩ := h1 hi
        exact Or.inl ⟨m, _, hm⟩
      · obtain ⟨m, hm⟩ := h2 hi
        exact Or.inl ⟨m, _, hm⟩

theorem not_mem_beforeFirst (c : UInt8) (s : GoString) : c ∉ beforeFirst c s := by
  intro h
  have := List.mem_takeWhile_imp h
  simp at this

theorem beforeFirst_sublist (c : UInt8) (s : GoString) : (beforeFirst c s).Sublist s :=
  List.takeWhile_sublist _

theorem afterFirst_sublist (c : UInt8) (s : GoString) : (afterFirst c s).Sublist s :=
  (List.drop_sublist _ _).trans (List.dropWhile_sublist _)

theorem head_beforeFirst (c x : UInt8) (s : GoString) (h : s.head? ≠ some x) :
    (beforeFirst c s).head? ≠ some x := by
  unfold beforeFirst
  cases s with
  | nil => simp
  | cons y ys =>
    by_cases hy : y = c
    · rw [List.takeWhile_cons_of_neg (by simpa using hy)]
      simp
    · rw [List.takeWhile_cons_of_pos (by simpa using hy)]
      simpa using h

/-- The parameters that the loop adds, except the last one, contain no space
and do not start with `':'`. -/
theorem params_dropLast :
    ∀ (fuel : Nat) (input : GoString) (acc ps : List GoString),
      NewMessage.params fuel input acc = .ok ps →
      (∀ p ∈ acc, SP ∉ p ∧ p.head? ≠ some COLON) →
      ∀ p ∈ ps.dropLast, SP ∉ p ∧ p.head? ≠ some COLON := by
  intro fuel
  induction fuel with
  | zero =>
    intro input acc ps h hacc p hp
    by_cases hi : input.length > 0
    · simp [NewMessage.params, hi] at h
    · simp only [NewMessage.params, hi, if_false, Except.ok.injEq] at h
      subst h
      exact hacc p (List.dropLast_subset _ hp)
  | succ f ih =>
    intro input acc ps h hacc p hp
    cases input with
    | nil =>
      simp only [params_nil, Except.ok.injEq] at h
      subst h
      exact hacc p (List.dropLast_subset _ hp)
    | cons x xs =>
      simp only [NewMessage.params, List.length_cons, gt_iff_lt, Nat.zero_lt_succ, if_true,
        index_cons, Except_ok_bind] at h
      by_cases hx : x = COLON
      · simp only [hx, if_true, Except.ok.injEq] at h
        subst h
        rw [List.dropLast_concat] at hp
        exact hacc p hp
      · simp only [if_neg hx, split_eq] at h
        refine ih _ _ _ h ?_ p hp
        intro q hq
        rcases List.mem_append.1 hq with hq | hq
        · exact hacc q hq
        · simp only [List.mem_singleton] at hq
          subst hq
          exact ⟨not_mem_beforeFirst SP _,
            head_beforeFirst SP COLON _ (by simpa using hx)⟩

/-- What a successful command block returns. -/
theorem command_ok_inv (msg m : Message) (input : GoString)
    (h : NewMessage.command msg input = .ok (m, none)) :
    m.Sender = msg.Sender ∧ m.Command = beforeFirst SP input ∧ beforeFirst SP input ≠ []
    ∧ NewMessage.params (afterFirst SP input).length (afterFirst SP input) msg.Params
        = .ok m.Params := by
  by_cases hb : beforeFirst SP input = []
  · rw [command_invalid msg input hb] at h
    simp at h
  · obtain ⟨ps, hps⟩ := params_total (afterFirst SP input).length (afterFirst SP input)
      msg.Params (le_refl _)
    have hc : NewMessage.command msg input =
        .ok ({ msg with Command := beforeFirst SP input, Params := ps }, none) := by
      simp [NewMessage.command, split_eq, hb, hps]
    rw [hc] at h
    simp only [Except.ok.injEq, Prod.mk.injEq, and_true] at h
    subst h
    exact ⟨rfl, rfl, hb, hps⟩

theorem line_colon_eq (rest : GoString) :
    NewMessage.line Message.zero (COLON :: rest) =
      if (afterFirst SP rest).length = 0 ∨ (beforeFirst SP rest).length = 0 then
        .ok (Message.zero, some .ErrInvalidMessage)
      else
        NewMessage.command { Message.zero with Sender := senderOf (beforeFirst SP rest) }
          (afterFirst SP rest) := by
  simp [NewMessage.line, index_cons, split_eq, senderOf]

theorem stripTerminator_head (s : GoString) (h : stripTerminator s ≠ []) :
    (stripTerminator s).head? = s.head? := by
  have key : ∀ k : Nat, s.take k ≠ [] → (s.take k).head? = s.head? := by
    intro k hk
    cases s with
    | nil => simp at hk
    | cons x xs =>
      cases k with
      | zero => simp at hk
      | succ k => simp
  unfold stripTerminator at h ⊢
  by_cases h1 : CRLF <:+ s
  · simp only [h1, if_true] at h ⊢
    exact key _ h
  · by_cases h2 : [LF] <:+ s
    · simp only [h1, h2, if_true, if_false] at h ⊢
      exact key _ h
    · simp only [h1, h2, if_false]

/-- The shape of a successful parse: the stripped line is non-empty, and
either it has no prefix and the command block ran on the whole line, or it is
`":" + pfx + " " + input` and the command block ran on `input` with the sender
of `pfx`. -/
theorem NewMessage_ok_cases (s : GoString) (m : Message) (h : NewMessage s = .ok (m, none)) :
    (s.head? ≠ some COLON ∧ NewMessage.command Message.zero (stripTerminator s) = .ok (m, none))
    ∨ (∃ rest, stripTerminator s = COLON :: rest ∧ s.head? = some COLON
        ∧ beforeFirst SP rest ≠ [] ∧
        NewMessage.command { Message.zero with Sender := senderOf (beforeFirst SP rest) }
          (afterFirst SP rest) = .ok (m, none)) := by
  have hs : s ≠ [] := by
    rintro rfl
    simp [NewMessage] at h
  rw [NewMessage_eq_line s hs] at h
  have hL : stripTerminator s ≠ [] := by
    intro e
    rw [e] at h
    simp [NewMessage.line, index_nil] at h
  have hhead := stripTerminator_head s hL
  cases hstr : stripTerminator s with
  | nil => exact absurd hstr hL
  | cons x rest =>
    rw [hstr] at h hhead
    by_cases hx : x = COLON
    · subst hx
      right
      rw [line_colon_eq] at h
      by_cases hc : (afterFirst SP rest).length = 0 ∨ (beforeFirst SP rest).length = 0
      · rw [if_pos hc] at h
        simp at h
      · rw [if_neg hc] at h
        simp only [not_or, List.length_eq_zero] at hc
        exact ⟨rest, rfl, by simpa using hhead.symm, hc.2, h⟩
    · left
      rw [line_of_head Message.zero (x :: rest) x rfl hx] at h
      refine ⟨?_, h⟩
      rw [← hhead]
      simpa using hx

theorem not_mem_of_sublist (c : UInt8) (a b : GoString) (h : a.Sublist b) (hc : c ∉ b) :
    c ∉ a := fun ha => hc (h.subset ha)

/-- Every message that the parser returns without error is well formed. -/
theorem NewMessage_ok_wf (s : GoString) (m : Message) (h : NewMessage s = .ok (m, none)) :
    m.Command ≠ [] ∧ SP ∉ m.Command
    ∧ (∀ p ∈ m.Params.dropLast, SP ∉ p ∧ p.head? ≠ some COLON)
    ∧ (SP ∉ m.Sender.Nickname ∧ BANG ∉ m.Sender.Nickname ∧ AT ∉ m.Sender.Nickname)
    ∧ (SP ∉ m.Sender.User ∧ AT ∉ m.Sender.User)
    ∧ SP ∉ m.Sender.Host
    ∧ (s.head? ≠ some COLON → m.Sender = ⟨[], [], []⟩ ∧ m.Command.head? ≠ some COLON) := by
  rcases NewMessage_ok_cases s m h with ⟨hhead, hcmd⟩ | ⟨rest, hstr, hhead, hpfx, hcmd⟩
  · obtain ⟨hS, hC, hne, hP⟩ := command_ok_inv _ _ _ hcmd
    have hL : stripTerminator s ≠ [] := by
      intro e
      rw [e] at hne
      exact hne rfl
    have hsender : m.Sender = ⟨[], [], []⟩ := by rw [hS]; rfl
    refine ⟨by rw [hC]; exact hne, by rw [hC]; exact not_mem_beforeFirst SP _,
      params_dropLast _ _ _ _ hP (by simp [Message.zero]), ?_, ?_, ?_, ?_⟩
    · simp [hsender]
    · simp [hsender]
    · simp [hsender]
    · intro _
      refine ⟨hsender, ?_⟩
      rw [hC]
      apply head_beforeFirst
      rw [stripTerminator_head s hL]
      exact hhead
  · obtain ⟨hS, hC, hne, hP⟩ := command_ok_inv _ _ _ hcmd
    have hS2 : m.Sender = senderOf (beforeFirst SP rest) := hS
    have hsp : SP ∉ beforeFirst SP rest := not_mem_beforeFirst SP rest
    have hat : AT ∉ beforeFirst AT (beforeFirst SP rest) := not_mem_beforeFirst AT _
    have hsp2 : SP ∉ beforeFirst AT (beforeFirst SP rest) :=
      not_mem_of_sublist _ _ _ (beforeFirst_sublist _ _) hsp
    refine ⟨by rw [hC]; exact hne, by rw [hC]; exact not_mem_beforeFirst SP _,
      params_dropLast _ _ _ _ hP (by simp [Message.zero]), ?_, ?_, ?_, ?_⟩
    · rw [hS2]
      exact ⟨not_mem_of_sublist _ _ _ (beforeFirst_sublist _ _) hsp2,
        not_mem_beforeFirst BANG _,
        not_mem_of_sublist _ _ _ (beforeFirst_sublist _ _) hat⟩
    · rw [hS2]
      exact ⟨not_mem_of_sublist _ _ _ (afterFirst_sublist _ _) hsp2,
        not_mem_of_sublist _ _ _ (afterFirst_sublist _ _) hat⟩
    · rw [hS2]
      exact not_mem_of_sublist _ _ _ (afterFirst_sublist _ _) hsp
    · intro hc
      exact absurd hhead hc

/-! ## Builder on an arbitrary sink: lemmas -/

theorem andThen_assoc {σ : Type} (r : σ × Option Error) (f g : σ → σ × Option Error) :
    andThen (andThen r f) g = andThen r (fun s => andThen (f s) g) := by
  obtain ⟨s, o⟩ := r
  cases o <;> rfl

theorem andThen_pure {σ : Type} (r : σ × Option Error) :
    andThen r (fun s => (s, none)) = r := by
  obtain ⟨s, o⟩ := r
  cases o <;> rfl

theorem issueAll_nil {σ : Type} (b : builder σ) (s : σ) : b.issueAll [] s = (s, none) := rfl

theorem issueAll_cons {σ : Type} (b : builder σ) (op : WriteOp) (ops : List WriteOp) (s : σ) :
    b.issueAll (op :: ops) s = andThen (b.issue s op) (b.issueAll ops) := by
  simp only [builder.issueAll]
  rcases h : b.issue s op with ⟨s1, o⟩
  cases o <;> rfl

theorem issueAll_append {σ : Type} (b : builder σ) (xs ys : List WriteOp) (s : σ) :
    b.issueAll (xs ++ ys) s = andThen (b.issueAll xs s) (b.issueAll ys) := by
  induction xs generalizing s with
  | nil => rfl
  | cons x xs ih =>
    rw [List.cons_append, issueAll_cons, issueAll_cons, andThen_assoc]
    congr 1
    funext s1
    exact ih s1

/-- The run succeeds exactly when every write that is reached succeeds. -/
theorem issueAll_ok_iff {σ : Type} (b : builder σ) (ops : List WriteOp) (s : σ) :
    (b.issueAll ops s).2 = none ↔
      ∀ pre op post, ops = pre ++ op :: post → (b.issueAll pre s).2 = none →
        (b.issue (b.issueAll pre s).1 op).2 = none := by
  constructor
  · rintro h pre op post rfl hpre
    rw [issueAll_append] at h
    rcases hp : b.issueAll pre s with ⟨s1, o1⟩
    rw [hp] at h hpre
    simp only at hpre
    subst hpre
    rw [andThen_ok, issueAll_cons] at h
    simp only
    rcases hi : b.issue s1 op with ⟨s2, o2⟩
    rw [hi] at h
    cases o2 with
    | none => rfl
    | some e => simp at h
  · induction ops generalizing s with
    | nil => intro _; rfl
    | cons op rest ih =>
      intro h
      have h0 := h [] op rest rfl rfl
      simp only [issueAll_nil] at h0
      rcases hi : b.issue s op with ⟨s1, o1⟩
      rw [hi] at h0
      simp only at h0
      subst h0
      rw [issueAll_cons, hi, andThen_ok]
      apply ih
      intro pre op2 post e hpre
      have h1 := h (op :: pre) op2 post (by rw [e]; rfl)
      rw [issueAll_cons, hi, andThen_ok] at h1
      exact h1 hpre

/-- A failed run ends with the state and the error of the first failing
write. -/
theorem issueAll_err {σ : Type} (b : builder σ) (ops : List WriteOp) (s : σ) (e : Error)
    (h : (b.issueAll ops s).2 = some e) :
    ∃ pre op post, ops = pre ++ op :: post ∧ (b.issueAll pre s).2 = none
      ∧ b.issue (b.issueAll pre s).1 op = ((b.issueAll ops s).1, some e) := by
  induction ops generalizing s with
  | nil => simp [issueAll_nil] at h
  | cons op rest ih =>
    rcases hi : b.issue s op with ⟨s1, o1⟩
    cases o1 with
    | some e1 =>
      rw [issueAll_cons, hi, andThen_err] at h
      simp only [Option.some.injEq] at h
      subst h
      refine ⟨[], op, rest, rfl, rfl, ?_⟩
      rw [issueAll_cons, hi, andThen_err, issueAll_nil]
      exact hi
    | none =>
      rw [issueAll_cons, hi, andThen_ok] at h
      obtain ⟨pre, op2, post, e1, e2, e3⟩ := ih s1 h
      refine ⟨op :: pre, op2, post, by rw [e1]; rfl, ?_, ?_⟩
      · rw [issueAll_cons, hi, andThen_ok]
        exact e2
      · rw [issueAll_cons, hi, andThen_ok, issueAll_cons, hi, andThen_ok]
        exact e3

theorem issueAll_cons_fun {σ : Type} (b : builder σ) (op : WriteOp) (ops : List WriteOp) :
    b.issueAll (op :: ops) = fun s => andThen (b.issue s op) (b.issueAll ops) :=
  funext (issueAll_cons b op ops)

theorem issueAll_nil_fun {σ : Type} (b : builder σ) :
    b.issueAll [] = fun s => (s, none) := rfl

theorem issueAll_append_fun {σ : Type} (b : builder σ) (xs ys : List WriteOp) :
    b.issueAll (xs ++ ys) = fun s => andThen (b.issueAll xs s) (b.issueAll ys) :=
  funext (issueAll_append b xs ys)

theorem buildParams_eq_issueAll {σ : Type} (b : builder σ) (n : Nat) (ps : List GoString) :
    ∀ (i : Nat), i + ps.length = n →
      Message.buildParams b n i ps = b.issueAll (specParamWrites ps) := by
  induction ps with
  | nil => intro i _; rfl
  | cons p rest ih =>
    intro i h
    funext s
    cases rest with
    | nil =>
      have hi : i = n - 1 := by simp at h; omega
      simp only [Message.buildParams, specParamWrites, issueAll_cons_fun, issueAll_nil_fun,
        builder.issue, if_pos hi]
    | cons q rest =>
      have hi : i ≠ n - 1 := by simp at h; omega
      have hrec := ih (i + 1) (by simp at h ⊢; omega)
      rw [Message.buildParams]
      simp only [if_neg hi, andThen_ok, hrec, specParamWrites, List.cons_append,
        List.nil_append, issueAll_cons_fun, builder.issue]

/-- On every sink `build` issues the writes of the builder's format, in order,
up to the first that fails. -/
theorem build_eq_issueAll {σ : Type} (m : Message) (b : builder σ) (s : σ) :
    m.build b s = b.issueAll (specWrites m) s := by
  have hlen : ∀ l : GoString, (l.length > 0) = (l ≠ []) := by
    intro l; cases l <;> simp
  have hfun := buildParams_eq_issueAll b m.Params.length m.Params 0 (by simp)
  unfold Message.build specWrites
  rw [hfun]
  by_cases hn : m.Sender.Nickname = []
  · simp only [hlen, hn, ne_eq, not_true_eq_false, if_false, if_true, andThen_ok,
      List.nil_append, List.singleton_append, List.cons_append, issueAll_cons_fun,
      issueAll_append_fun, builder.issue, issueAll_nil_fun, andThen_assoc, andThen_pure]
  · by_cases hu : m.Sender.User = [] <;> by_cases hh : m.Sender.Host = [] <;>
      simp only [hlen, hn, hu, hh, ne_eq, not_true_eq_false, not_false_eq_true, if_false,
        if_true, andThen_ok, List.nil_append, List.singleton_append, List.cons_append,
        List.append_nil, List.append_assoc, issueAll_cons_fun, issueAll_append_fun,
        builder.issue, issueAll_nil_fun, andThen_assoc, andThen_pure]

theorem issueAll_never_fails {σ : Type} (b : builder σ)
    (hb : ∀ s c, (b.WriteByte s c).2 = none) (hs : ∀ s t, (b.WriteString s t).2 = none)
    (ops : List WriteOp) (s : σ) : (b.issueAll ops s).2 = none := by
  rw [issueAll_ok_iff]
  intro pre op post _ _
  cases op with
  | byte c => exact hb _ c
  | string t => exact hs _ t

theorem issueAll_stringsBuilder (ops : List WriteOp) (s : GoString) :
    stringsBuilder.issueAll ops s = (s ++ (ops.map WriteOp.bytes).flatten, none) := by
  induction ops generalizing s with
  | nil => simp [issueAll_nil]
  | cons op rest ih =>
    rw [issueAll_cons]
    cases op with
    | byte c => simp [builder.issue, ih, WriteOp.bytes]
    | string t => simp [builder.issue, ih, WriteOp.bytes]

/-- The bytes of the writes of a message are its line. -/
theorem specWrites_bytes (m : Message) :
    ((specWrites m).map WriteOp.bytes).flatten = m.String := by
  unfold Message.String
  rw [build_eq_issueAll, issueAll_stringsBuilder]
  simp

theorem build_stringsBuilder (m : Message) (s : GoString) :
    m.build stringsBuilder s = (s ++ m.String, none) := by
  rw [build_eq_issueAll, issueAll_stringsBuilder, specWrites_bytes]

/-! ## Reader: lemmas -/

theorem ReadString_line (a rest : GoString) (h : LF ∉ a) :
    (bufioReader.mk (a ++ [LF] ++ rest)).ReadString LF = (⟨rest⟩, a ++ [LF], none) := by
  have e : a ++ [LF] ++ rest = a ++ LF :: rest := by simp
  have hi : IndexByte (a ++ LF :: rest) LF = (a.length : Int) := IndexByte_append a rest LF h
  unfold bufioReader.ReadString
  simp only [e, hi]
  have h0 : ((a.length : Int) ≥ 0) := Int.natCast_nonneg _
  simp only [h0, if_true, Int.toNat_ofNat]
  have h1 : List.drop (a.length + 1) (a ++ LF :: rest) = rest := by
    rw [List.drop_append_eq_append_drop]
    simp
  have h2 : List.take (a.length + 1) (a ++ LF :: rest) = a ++ [LF] := by
    rw [List.take_append_eq_append_take]
    simp
  rw [h1, h2]

theorem ReadString_eof (u : GoString) (h : LF ∉ u) :
    (bufioReader.mk u).ReadString LF = (⟨[]⟩, u, some EOF) := by
  unfold bufioReader.ReadString
  simp [IndexByte_of_not_mem u LF h]

theorem Read_line (a rest : GoString) (h : LF ∉ a) :
    (Reader.mk ⟨a ++ [LF] ++ rest⟩).Read = (⟨⟨rest⟩⟩, NewMessage (a ++ [LF])) := by
  unfold Reader.Read
  simp only [ReadString_line a rest h]

theorem Read_eof (u : GoString) (h : LF ∉ u) :
    (Reader.mk ⟨u⟩).Read = (⟨⟨[]⟩⟩, .ok (Message.zero, some EOF)) := by
  unfold Reader.Read
  simp only [ReadString_eof u h]

/-! ## Writer: lemmas -/

theorem Flush_size (b : bufioWriter) : b.Flush.1.size = b.size := by
  unfold bufioWriter.Flush
  split
  · rfl
  · split
    · rfl
    · simp only
      split <;> rfl

/-- The error that `Flush` returns is the sticky error it leaves. -/
theorem Flush_err (b : bufioWriter) : b.Flush.2 = b.Flush.1.err := by
  unfold bufioWriter.Flush
  by_cases he : b.err = none
  · simp only [he, ne_eq, not_true_eq_false, if_false]
    split
    · exact he.symm
    · split
      · rfl
      · rfl
  · simp [he]

/-- A `Flush` without error hands the whole buffer to the underlying writer. -/
theorem Flush_ok (b : bufioWriter) (he : b.err = none) (h : b.Flush.2 = none) :
    b.Flush.1.err = none ∧ b.Flush.1.buf = [] ∧ b.Flush.1.wr.data = b.wr.data ++ b.buf := by
  refine ⟨by rw [← Flush_err]; exact h, ?_⟩
  unfold bufioWriter.Flush at h ⊢
  simp only [he, ne_eq, not_true_eq_false, if_false] at h ⊢
  by_cases hb : b.buf.length = 0
  · have : b.buf = [] := List.length_eq_zero.1 hb
    simp [hb, this]
  · simp only [hb, if_false] at h ⊢
    unfold Sink.Write at h ⊢
    cases hs : b.wr.script with
    | nil =>
      simp [hs]
    | cons x rest =>
      obtain ⟨n, err⟩ := x
      simp only [hs] at h ⊢
      cases err with
      | some e => simp at h
      | none =>
        by_cases hn : min n b.buf.length < b.buf.length
        · simp [hn] at h
        · have hge : b.buf.length ≤ n := by
            simp only [Nat.min_def] at hn
            split at hn <;> omega
          simp [hn, List.take_of_length_le hge]

theorem WriteByte_of_err (b : bufioWriter) (c : UInt8) (e : Error) (he : b.err = some e) :
    (b.WriteByte c).2 = some e := by
  simp [bufioWriter.WriteByte, he]

/-- A `WriteByte` without error adds the byte to what the writer holds. -/
theorem WriteByte_ok (b : bufioWriter) (c : UInt8) (he : b.err = none)
    (hb : b.buf.length ≤ b.size) (hsz : 0 < b.size) (h : (b.WriteByte c).2 = none) :
    (b.WriteByte c).1.err = none
    ∧ (b.WriteByte c).1.wr.data ++ (b.WriteByte c).1.buf = b.wr.data ++ b.buf ++ [c]
    ∧ (b.WriteByte c).1.buf.length ≤ (b.WriteByte c).1.size
    ∧ (b.WriteByte c).1.size = b.size := by
  unfold bufioWriter.WriteByte at h ⊢
  simp only [he, ne_eq, not_true_eq_false, if_false] at h ⊢
  by_cases ha : b.Available ≤ 0
  · simp only [ha, if_true] at h ⊢
    have hsize := Flush_size b
    have herr := Flush_err b
    rcases hf : b.Flush with ⟨b1, o⟩
    rw [hf] at h hsize herr
    simp only at hsize herr
    cases o with
    | some e =>
      simp only at h
      rw [← herr] at h
      simp at h
    | none =>
      have hok := Flush_ok b he (by rw [hf])
      rw [hf] at hok
      simp only at hok ⊢
      refine ⟨hok.1, ?_, ?_, hsize⟩
      · rw [hok.2.2, hok.2.1]
        simp
      · rw [hok.2.1, hsize]
        simpa using hsz
  · simp only [ha, if_false]
    refine ⟨trivial, by simp, ?_, trivial⟩
    unfold bufioWriter.Available at ha
    simp
    omega

theorem loop_of_err (fuel : Nat) (b : bufioWriter) (s : GoString) (he : b.err ≠ none) :
    bufioWriter.WriteString.loop fuel b s = (b, s) := by
  cases fuel with
  | zero => rfl
  | succ f => simp [bufioWriter.WriteString.loop, he]

theorem loop_size (fuel : Nat) :
    ∀ (b : bufioWriter) (s : GoString), (bufioWriter.WriteString.loop fuel b s).1.size = b.size := by
  induction fuel with
  | zero => intro b s; rfl
  | succ f ih =>
    intro b s
    simp only [bufioWriter.WriteString.loop]
    split
    · rw [ih, Flush_size]
    · rfl

/-- The loop of `WriteString`: when it ends without error nothing is lost, and
with enough fuel the rest of the string fits into the buffer. -/
theorem loop_ok (fuel : Nat) :
    ∀ (b : bufioWriter) (s : GoString), b.err = none → b.buf.length ≤ b.size → 0 < b.size →
      (bufioWriter.WriteString.loop fuel b s).1.err = none →
      (bufioWriter.WriteString.loop fuel b s).1.wr.data
          ++ (bufioWriter.WriteString.loop fuel b s).1.buf
          ++ (bufioWriter.WriteString.loop fuel b s).2 = b.wr.data ++ b.buf ++ s
      ∧ (bufioWriter.WriteString.loop fuel b s).1.buf.length ≤ b.size
      ∧ (s.length + (if b.buf = [] then 0 else 1) < fuel →
          (bufioWriter.WriteString.loop fuel b s).2.length
            ≤ (bufioWriter.WriteString.loop fuel b s).1.Available) := by
  induction fuel with
  | zero =>
    intro b s he hb hsz _
    exact ⟨rfl, hb, fun h => absurd h (Nat.not_lt_zero _)⟩
  | succ f ih =>
    intro b s he hb hsz hr
    by_cases hc : s.length > b.Available ∧ b.err = none
    · -- one iteration
      have hstep : bufioWriter.WriteString.loop (f + 1) b s =
          bufioWriter.WriteString.loop f
            (bufioWriter.Flush { b with buf := b.buf ++ s.take (min b.Available s.length) }).1
            (s.drop (min b.Available s.length)) := by
        simp only [bufioWriter.WriteString.loop, hc, and_self, if_true]
      rw [hstep] at hr ⊢
      generalize hb1 : ({ b with buf := b.buf ++ s.take (min b.Available s.length) } : bufioWriter)
        = b1 at hr ⊢
      have hb1err : b1.err = none := by rw [← hb1]; exact he
      have hb1size : b1.size = b.size := by rw [← hb1]
      have hb1buf : b1.buf = b.buf ++ s.take (min b.Available s.length) := by rw [← hb1]
      have hb1wr : b1.wr = b.wr := by rw [← hb1]
      have hmin : min b.Available s.length = b.Available := Nat.min_eq_left (Nat.le_of_lt hc.1)
      by_cases he2 : b1.Flush.1.err = none
      · have hok := Flush_ok b1 hb1err (by rw [Flush_err]; exact he2)
        have hsz2 : b1.Flush.1.size = b.size := by rw [Flush_size, hb1size]
        have := ih b1.Flush.1 (s.drop (min b.Available s.length)) he2
          (by rw [hok.2.1]; simp) (by rw [hsz2]; exact hsz) hr
        obtain ⟨i1, i2, i3⟩ := this
        refine ⟨?_, by rw [hsz2] at i2; exact i2, ?_⟩
        · rw [i1, hok.2.1, hok.2.2, hb1buf, hb1wr]
          simp
        · intro hfuel
          apply i3
          rw [hok.2.1]
          simp only [if_true, Nat.add_zero, List.length_drop, hmin]
          unfold bufioWriter.Available at hc ⊢
          by_cases hbuf : b.buf = []
          · simp only [hbuf, if_true, List.length_nil] at hfuel ⊢
            omega
          · simp only [hbuf, if_false] at hfuel
            omega
      · rw [loop_of_err _ _ _ he2] at hr
        exact absurd hr he2
    · have hstep : bufioWriter.WriteString.loop (f + 1) b s = (b, s) := by
        simp only [bufioWriter.WriteString.loop, hc, if_false]
      rw [hstep]
      refine ⟨rfl, hb, fun _ => ?_⟩
      simp only [he, and_true, not_lt] at hc
      exact hc

theorem WriteString_of_err (b : bufioWriter) (s : GoString) (e : Error) (he : b.err = some e) :
    (b.WriteString s).2 = some e := by
  unfold bufioWriter.WriteString
  rw [loop_of_err _ _ _ (by simp [he])]
  simp [he]

/-- A `WriteString` without error adds the string to what the writer holds. -/
theorem WriteString_ok (b : bufioWriter) (s : GoString) (he : b.err = none)
    (hb : b.buf.length ≤ b.size) (hsz : 0 < b.size) (h : (b.WriteString s).2 = none) :
    (b.WriteString s).1.err = none
    ∧ (b.WriteString s).1.wr.data ++ (b.WriteString s).1.buf = b.wr.data ++ b.buf ++ s
    ∧ (b.WriteString s).1.buf.length ≤ (b.WriteString s).1.size
    ∧ (b.WriteString s).1.size = b.size := by
  have hsize := loop_size (s.length + 2) b s
  have hloop := loop_ok (s.length + 2) b s he hb hsz
  unfold bufioWriter.WriteString at h ⊢
  generalize bufioWriter.WriteString.loop (s.length + 2) b s = r at hsize hloop h ⊢
  obtain ⟨b1, s1⟩ := r
  simp only at hsize hloop h ⊢
  by_cases he1 : b1.err = none
  · obtain ⟨i1, i2, i3⟩ := hloop he1
    have hfit : s1.length ≤ b1.Available := i3 (by split <;> omega)
    have hmin : min b1.Available s1.length = s1.length := Nat.min_eq_right hfit
    simp only [he1, ne_eq, not_true_eq_false, if_false, hmin, List.take_length]
    refine ⟨trivial, ?_, ?_, hsize⟩
    · rw [← i1]
      simp
    · unfold bufioWriter.Available at hfit
      simp only [List.length_append]
      omega
  · simp only [he1, ne_eq, not_false_eq_true, if_true] at h

/-- A run of writes on a `bufio.Writer` that ends without error adds the bytes
of all the writes to what the writer holds. -/
theorem issueAll_bufio_ok (ops : List WriteOp) :
    ∀ (b : bufioWriter), b.err = none → b.buf.length ≤ b.size → 0 < b.size →
      (bufioBuilder.issueAll ops b).2 = none →
      (bufioBuilder.issueAll ops b).1.err = none
      ∧ (bufioBuilder.issueAll ops b).1.wr.data ++ (bufioBuilder.issueAll ops b).1.buf
          = b.wr.data ++ b.buf ++ (ops.map WriteOp.bytes).flatten := by
  induction ops with
  | nil =>
    intro b he _ _ _
    simp [issueAll_nil, he]
  | cons op rest ih =>
    intro b he hb hsz h
    rw [issueAll_cons] at h ⊢
    have hstep : (bufioBuilder.issue b op).2 = none →
        (bufioBuilder.issue b op).1.err = none
        ∧ (bufioBuilder.issue b op).1.wr.data ++ (bufioBuilder.issue b op).1.buf
            = b.wr.data ++ b.buf ++ op.bytes
        ∧ (bufioBuilder.issue b op).1.buf.length ≤ (bufioBuilder.issue b op).1.size
        ∧ (bufioBuilder.issue b op).1.size = b.size := by
      cases op with
      | byte c => exact WriteByte_ok b c he hb hsz
      | string t => exact WriteString_ok b t he hb hsz
    rcases hi : bufioBuilder.issue b op with ⟨b1, o⟩
    rw [hi] at h hstep
    cases o with
    | some e => simp at h
    | none =>
      obtain ⟨s1, s2, s3, s4⟩ := hstep rfl
      simp only at s1 s2 s3 s4
      rw [andThen_ok] at h ⊢
      obtain ⟨r1, r2⟩ := ih b1 s1 s3 (by rw [s4]; exact hsz) h
      refine ⟨r1, ?_⟩
      rw [r2, s2]
      simp

theorem issueAll_bufio_of_err (op : WriteOp) (ops : List WriteOp) (b : bufioWriter) (e : Error)
    (he : b.err = some e) : (bufioBuilder.issueAll (op :: ops) b).2 = some e := by
  rw [issueAll_cons]
  have hstep : (bufioBuilder.issue b op).2 = some e := by
    cases op with
    | byte c => exact WriteByte_of_err b c e he
    | string t => exact WriteString_of_err b t e he
  rcases hi : bufioBuilder.issue b op with ⟨b1, o⟩
  rw [hi] at hstep
  simp only at hstep
  subst hstep
  rfl

theorem specWrites_ne_nil (m : Message) : ∃ op ops, specWrites m = op :: ops := by
  unfold specWrites
  by_cases hn : m.Sender.Nickname = []
  · exact ⟨_, _, by simp only [hn, if_true, List.nil_append, List.singleton_append,
      List.cons_append]; rfl⟩
  · exact ⟨_, _, by simp only [hn, if_false, List.cons_append, List.append_assoc]; rfl⟩

/-- A `Write` that returns no error has handed the whole line to the sink. -/
theorem Write_ok (w : Writer) (m : Message) (hbuf : w.wr.buf = []) (hsz : 0 < w.wr.size)
    (h : (w.Write m).2 = none) :
    (w.Write m).1.wr.wr.data = w.wr.wr.data ++ m.String ∧ (w.Write m).1.wr.buf = [] := by
  unfold Writer.Write at h ⊢
  rw [build_eq_issueAll] at h ⊢
  have herr : w.wr.err = none := by
    cases he : w.wr.err with
    | none => rfl
    | some e =>
      obtain ⟨op, ops, hops⟩ := specWrites_ne_nil m
      have := issueAll_bufio_of_err op ops w.wr e he
      rw [← hops] at this
      rcases hr : bufioBuilder.issueAll (specWrites m) w.wr with ⟨b1, o⟩
      rw [hr] at this h
      simp only at this
      subst this
      simp at h
  have hinv := issueAll_bufio_ok (specWrites m) w.wr herr (by simp [hbuf]) hsz
  rcases hr : bufioBuilder.issueAll (specWrites m) w.wr with ⟨b1, o⟩
  rw [hr] at h hinv
  cases o with
  | some e => simp at h
  | none =>
    simp only at h ⊢
    obtain ⟨i1, i2⟩ := hinv rfl
    simp only at i1 i2
    obtain ⟨f1, f2, f3⟩ := Flush_ok b1 i1 h
    refine ⟨?_, f2⟩
    rw [f3, i2, hbuf, specWrites_bytes]
    simp

/-- The loop of `WriteString` does not run out of fuel: it ends with an error
or with a rest that fits into the buffer. -/
theorem WriteString_loop_exit (b : bufioWriter) (s : GoString)
    (hb : b.buf.length ≤ b.size) (hsz : 0 < b.size) :
    (bufioWriter.WriteString.loop (s.length + 2) b s).1.err ≠ none
    ∨ (bufioWriter.WriteString.loop (s.length + 2) b s).2.length
        ≤ (bufioWriter.WriteString.loop (s.length + 2) b s).1.Available := by
  by_cases he : b.err = none
  · by_cases hr : (bufioWriter.WriteString.loop (s.length + 2) b s).1.err = none
    · exact Or.inr ((loop_ok (s.length + 2) b s he hb hsz hr).2.2 (by split <;> omega))
    · exact Or.inl hr
  · rw [loop_of_err _ _ _ he]
    exact Or.inl he

/-! ## Claims -/

/-- C1 (as stated, refuted). The hypothesis on the non-last parameters alone
does not give the round trip: the message with command `"A B"` and no
parameters is built as `"A B\r\n"` and parsed as command `"A"` with parameter
`"B"`; and the round trip also fails for an empty command (the parser panics on
`"\r\n"`), a command starting with `':'`, a user without a nickname, a
nickname containing `'@'`, `'!'` or `' '`, a user containing `'@'` or `' '`, a
host without a nickname and a host containing `' '`. -/
theorem C1_counterexample :
    (∀ p ∈ (Message.mk ⟨[], [], []⟩ (lit "A B") []).Params.dropLast,
        SP ∉ p ∧ p.head? ≠ some COLON)
    ∧ NewMessage (Message.mk ⟨[], [], []⟩ (lit "A B") []).String
        = .ok (⟨⟨[], [], []⟩, lit "A", [lit "B"]⟩, none)
    ∧ NewMessage (Message.mk ⟨[], [], []⟩ (lit "A B") []).String
        ≠ .ok (⟨⟨[], [], []⟩, lit "A B", []⟩, none)
    ∧ NewMessage (Message.mk ⟨[], [], []⟩ [] []).String = .error .indexOutOfRange
    ∧ NewMessage (Message.mk ⟨[], [], []⟩ (lit ":x") []).String
        = .ok (⟨⟨[], [], []⟩, [], []⟩, some .ErrInvalidMessage)
    ∧ NewMessage (Message.mk ⟨[], lit "u", []⟩ (lit "PING") []).String
        = .ok (⟨⟨[], [], []⟩, lit "PING", []⟩, none)
    ∧ NewMessage (Message.mk ⟨lit "a@b", [], []⟩ (lit "PING") []).String
        = .ok (⟨⟨lit "a", [], lit "b"⟩, lit "PING", []⟩, none)
    ∧ NewMessage (Message.mk ⟨lit "a", lit "u@v", lit "h"⟩ (lit "PING") []).String
        = .ok (⟨⟨lit "a", lit "u", lit "v@h"⟩, lit "PING", []⟩, none)
    ∧ NewMessage (Message.mk ⟨lit "a", [], lit "h x"⟩ (lit "PING") []).String
        = .ok (⟨⟨lit "a", [], lit "h"⟩, lit "x", [lit "PING"]⟩, none)
    ∧ NewMessage (Message.mk ⟨[], [], lit "h"⟩ (lit "PING") []).String
        = .ok (⟨⟨[], [], []⟩, lit "PING", []⟩, none)
    ∧ NewMessage (Message.mk ⟨lit "a!b", [], []⟩ (lit "PING") []).String
        = .ok (⟨⟨lit "a", lit "b", []⟩, lit "PING", []⟩, none)
    ∧ NewMessage (Message.mk ⟨lit "a b", [], []⟩ (lit "PING") []).String
        = .ok (⟨⟨lit "a", [], []⟩, lit "b", [lit "PING"]⟩, none)
    ∧ NewMessage (Message.mk ⟨lit "a", lit "u v", []⟩ (lit "PING") []).String
        = .ok (⟨⟨lit "a", lit "u", []⟩, lit "v", [lit "PING"]⟩, none) := by
  refine ⟨by decide, by decide, by decide, by decide, by decide, by decide, by decide,
    by decide, by decide, by decide, by decide, by decide, by decide⟩

/-- C1 (amended). Round trip: for every Message `m` whose command is non-empty
and contains no space, whose user and host are empty and whose command does not
start with `':'` when the nickname is empty, whose nickname contains none of
`' '`, `'!'`, `'@'`, whose user contains neither `' '` nor `'@'`, whose host
contains no `' '`, and whose non-last parameters contain no space and do not
start with `':'`, `NewMessage(m.String())` returns `m` with no error. -/
theorem C1_roundtrip (m : Message)
    (hc1 : m.Command ≠ []) (hc2 : SP ∉ m.Command)
    (hn : m.Sender.Nickname = [] →
      m.Sender.User = [] ∧ m.Sender.Host = [] ∧ m.Command.head? ≠ some COLON)
    (hnick : SP ∉ m.Sender.Nickname ∧ BANG ∉ m.Sender.Nickname ∧ AT ∉ m.Sender.Nickname)
    (huser : SP ∉ m.Sender.User ∧ AT ∉ m.Sender.User)
    (hhost : SP ∉ m.Sender.Host)
    (hps : ∀ p ∈ m.Params.dropLast, SP ∉ p ∧ p.head? ≠ some COLON) :
    NewMessage m.String = .ok (m, none) :=
  parse_build m hc1 hc2 hn hnick huser hhost hps

/-- C1 (amended), at the message `:nick!user@host PRIVMSG #chan :Hello there`. -/
theorem C1_roundtrip_witness :
    NewMessage (Message.mk ⟨lit "nick", lit "user", lit "host"⟩ (lit "PRIVMSG")
        [lit "#chan", lit "Hello there"]).String
      = .ok (Message.mk ⟨lit "nick", lit "user", lit "host"⟩ (lit "PRIVMSG")
        [lit "#chan", lit "Hello there"], none) :=
  C1_roundtrip (Message.mk ⟨lit "nick", lit "user", lit "host"⟩ (lit "PRIVMSG")
      [lit "#chan", lit "Hello there"])
    (by decide) (by decide) (by decide) (by decide) (by decide) (by decide) (by decide)

/-- C2 (the code at the failing inputs). `NewMessage("")` returns
`ErrInvalidMessage`, but on `"\n"` and on `"\r\n"` the emptiness test has
already passed when the terminator is stripped, and `input[0]` on the empty
remainder is an index-out-of-range panic instead of `ErrInvalidMessage`. -/
theorem C2_empty_line :
    NewMessage [] = .ok (Message.zero, some .ErrInvalidMessage)
    ∧ NewMessage (lit "\n") = .error .indexOutOfRange
    ∧ NewMessage (lit "\r\n") = .error .indexOutOfRange := by
  refine ⟨by decide, by decide, by decide⟩

/-- C3 (the code at the failing input). On `":a  x"` the prefix `a` is stored
in `msg.Sender` before the empty command is detected, and the message returned
with `ErrInvalidMessage` carries `Sender.Nickname = "a"`: it is not the zero
value. -/
theorem C3_sender_kept_on_error :
    NewMessage (lit ":a  x") = .ok (⟨⟨lit "a", [], []⟩, [], []⟩, some .ErrInvalidMessage)
    ∧ (⟨⟨lit "a", [], []⟩, [], []⟩ : Message) ≠ Message.zero
    ∧ NewMessage (lit ":nick!user@host  PRIVMSG #chan :hi\r\n")
        = .ok (⟨⟨lit "nick", lit "user", lit "host"⟩, [], []⟩, some .ErrInvalidMessage) := by
  refine ⟨by decide, by decide, by decide⟩

/-- C4. Exact failure condition: for every input `s` that is non-empty after
stripping one trailing `"\r\n"` or `"\n"`, `NewMessage(s)` returns
`ErrInvalidMessage` if and only if either (a) the stripped line starts with
`':'` and the text after that `':'` contains no space, or starts with a space,
or has nothing after its first space, or has a space immediately after its
first space; or (b) the stripped line does not start with `':'` and starts
with a space. In every other case it succeeds. -/
theorem C4_failure_condition (s : GoString) (h : stripTerminator s ≠ []) :
    ((∃ m, NewMessage s = .ok (m, some .ErrInvalidMessage)) ↔ specInvalid (stripTerminator s))
    ∧ (¬ specInvalid (stripTerminator s) → ∃ m, NewMessage s = .ok (m, none)) := by
  have hs : s ≠ [] := by
    rintro rfl
    exact h (by decide)
  obtain ⟨h1, h2⟩ := line_cases (stripTerminator s) h
  rw [NewMessage_eq_line s hs]
  refine ⟨⟨?_, h1⟩, h2⟩
  rintro ⟨m, hm⟩
  by_contra hn
  obtain ⟨m2, hm2⟩ := h2 hn
  rw [hm] at hm2
  simp at hm2

/-- C4 at `":onlyprefix"` (no space after the prefix), which fails with
`ErrInvalidMessage`. -/
theorem C4_failure_condition_witness :
    specInvalid (stripTerminator (lit ":onlyprefix"))
    ∧ ∃ m, NewMessage (lit ":onlyprefix") = .ok (m, some .ErrInvalidMessage) :=
  have h := C4_failure_condition (lit ":onlyprefix") (by decide)
  ⟨by decide, h.1.2 (by decide)⟩

/-- C5. For every Message `m`, `m.IsError()` is true if and only if `m.Command`
is exactly three bytes long and begins with `'4'` or `'5'`, or `m.Command`
equals `"263"`; in particular it is false for the commands `"001"`, `"262"`,
`"4000"`, `"45"` and `"ERROR"`, whatever the sender and the parameters. -/
theorem C5_IsError_iff (m : Message) :
    (m.IsError = true ↔
      (m.Command.length = 3 ∧ (lit "4" <+: m.Command ∨ lit "5" <+: m.Command))
        ∨ m.Command = lit "263")
    ∧ (∀ (s : Sender) (ps : List GoString),
        (Message.mk s (lit "001") ps).IsError = false
        ∧ (Message.mk s (lit "262") ps).IsError = false
        ∧ (Message.mk s (lit "4000") ps).IsError = false
        ∧ (Message.mk s (lit "45") ps).IsError = false
        ∧ (Message.mk s (lit "ERROR") ps).IsError = false) := by
  refine ⟨?_, fun s ps => ⟨rfl, rfl, rfl, rfl, rfl⟩⟩
  obtain ⟨s, cmd, ps⟩ := m
  have h4 : lit "4" = [0x34] := by decide
  have h5 : lit "5" = [0x35] := by decide
  simp only [Message.IsError, TryAgainReply, lit_263, h4, h5]
  match cmd with
  | [] => simp
  | [a] => simp
  | [a, b] => simp
  | [a, b, c] =>
    have e4 : (52 : UInt8) = a ↔ a = 52 := eq_comm
    have e5 : (53 : UInt8) = a ↔ a = 53 := eq_comm
    simp [List.cons_prefix_cons, e4, e5]
  | a :: b :: c :: d :: rest => simp

/-- C6. Canonical lines are reproduced byte for byte: for every command `c`
(non-empty, no space, not starting with `':'`), every list `ps` of middle
parameters (each without a space and not starting with `':'`) and every
trailing text `t`, with `s = c + (" " + p for each p in ps) + " :" + t + "\r\n"`,
`NewMessage(s)` succeeds with empty Sender, Command `c` and Params `ps ++ [t]`,
and `String()` of that message equals `s`. -/
theorem C6_canonical_line (c : GoString) (ps : List GoString) (t : GoString)
    (hc : c ≠ []) (hsp : SP ∉ c) (hcol : c.head? ≠ some COLON)
    (hps : ∀ p ∈ ps, SP ∉ p ∧ p.head? ≠ some COLON) :
    NewMessage (c ++ (ps.map fun p => [SP] ++ p).flatten ++ [SP, COLON] ++ t ++ CRLF)
        = .ok (⟨⟨[], [], []⟩, c, ps ++ [t]⟩, none)
    ∧ (Message.mk ⟨[], [], []⟩ c (ps ++ [t])).String
        = c ++ (ps.map fun p => [SP] ++ p).flatten ++ [SP, COLON] ++ t ++ CRLF := by
  have hstr : (Message.mk ⟨[], [], []⟩ c (ps ++ [t])).String
      = c ++ (ps.map fun p => [SP] ++ p).flatten ++ [SP, COLON] ++ t ++ CRLF := by
    rw [String_eq, specParams_append_last]
    simp [specPrefix]
  refine ⟨?_, hstr⟩
  rw [← hstr]
  exact parse_build _ hc hsp (fun _ => ⟨rfl, rfl, hcol⟩) (by simp) (by simp) (by simp)
    (by simpa using hps)

/-- C6 at `"PRIVMSG #chan :multi word text\r\n"`: Params are
`["#chan", "multi word text"]` and building gives the line back. -/
theorem C6_canonical_line_witness :
    lit "PRIVMSG" ++ ([lit "#chan"].map fun p => [SP] ++ p).flatten ++ [SP, COLON]
        ++ lit "multi word text" ++ CRLF = lit "PRIVMSG #chan :multi word text\r\n"
    ∧ NewMessage (lit "PRIVMSG" ++ ([lit "#chan"].map fun p => [SP] ++ p).flatten
        ++ [SP, COLON] ++ lit "multi word text" ++ CRLF)
        = .ok (⟨⟨[], [], []⟩, lit "PRIVMSG", [lit "#chan"] ++ [lit "multi word text"]⟩, none)
    ∧ (Message.mk ⟨[], [], []⟩ (lit "PRIVMSG") ([lit "#chan"] ++ [lit "multi word text"])).String
        = lit "PRIVMSG" ++ ([lit "#chan"].map fun p => [SP] ++ p).flatten ++ [SP, COLON]
          ++ lit "multi word text" ++ CRLF :=
  ⟨by decide,
    C6_canonical_line (lit "PRIVMSG") [lit "#chan"] (lit "multi word text")
      (by decide) (by decide) (by decide) (by decide)⟩

/-- C7. Prefix decomposition: for every non-empty `a` containing none of `' '`,
`'!'`, `'@'`, every `b` containing neither `' '` nor `'@'`, every `c` containing
no `' '`, and every command token `cmd` (non-empty, no space),
`NewMessage(":a!b@c cmd\r\n")` succeeds with `Sender{a, b, c}`,
`NewMessage(":a@c cmd\r\n")` succeeds with `Sender{a, "", c}` and
`NewMessage(":a cmd\r\n")` succeeds with `Sender{a, "", ""}`; and for every
prefix text `p` (non-empty, no space) `Host` is the text after the first `'@'`
of `p` and `Nickname`, `User` are the parts of the text before that `'@'` split
at its first `'!'`. -/
theorem C7_prefix_decomposition (a b c cmd : GoString)
    (ha : a ≠ []) (ha1 : SP ∉ a) (ha2 : BANG ∉ a) (ha3 : AT ∉ a)
    (hb1 : SP ∉ b) (hb2 : AT ∉ b) (hc : SP ∉ c) (hcmd1 : cmd ≠ []) (hcmd2 : SP ∉ cmd) :
    NewMessage ([COLON] ++ (a ++ [BANG] ++ b ++ [AT] ++ c) ++ [SP] ++ cmd ++ CRLF)
        = .ok (⟨⟨a, b, c⟩, cmd, []⟩, none)
    ∧ NewMessage ([COLON] ++ (a ++ [AT] ++ c) ++ [SP] ++ cmd ++ CRLF)
        = .ok (⟨⟨a, [], c⟩, cmd, []⟩, none)
    ∧ NewMessage ([COLON] ++ a ++ [SP] ++ cmd ++ CRLF)
        = .ok (⟨⟨a, [], []⟩, cmd, []⟩, none)
    ∧ (∀ p : GoString, p ≠ [] → SP ∉ p →
        NewMessage ([COLON] ++ p ++ [SP] ++ cmd ++ CRLF)
          = .ok (⟨⟨beforeFirst BANG (beforeFirst AT p), afterFirst BANG (beforeFirst AT p),
              afterFirst AT p⟩, cmd, []⟩, none)) := by
  have e1 : ¬ SP = BANG := by decide
  have e2 : ¬ SP = AT := by decide
  have e3 : ¬ AT = BANG := by decide
  refine ⟨?_, ?_, ?_, ?_⟩
  · rw [NewMessage_prefix_command _ cmd (by simp [ha]) (by simp [ha1, hb1, hc, e1, e2])
      hcmd1 hcmd2]
    have s1 : split (a ++ [BANG] ++ b ++ [AT] ++ c) AT = (a ++ [BANG] ++ b, c) := by
      have := split_append (a ++ [BANG] ++ b) c AT (by simp [ha3, hb2, e3])
      simpa using this
    have s2 : split (a ++ [BANG] ++ b) BANG = (a, b) := by
      have := split_append a b BANG ha2
      simpa using this
    rw [s1]; simp only; rw [s2]
  · rw [NewMessage_prefix_command _ cmd (by simp [ha]) (by simp [ha1, hc, e2]) hcmd1 hcmd2]
    have s1 : split (a ++ [AT] ++ c) AT = (a, c) := by
      have := split_append a c AT ha3
      simpa using this
    rw [s1]; simp only; rw [split_of_not_mem a BANG ha2]
  · rw [NewMessage_prefix_command _ cmd ha ha1 hcmd1 hcmd2, split_of_not_mem a AT ha3]
    simp only
    rw [split_of_not_mem a BANG ha2]
  · intro p hp1 hp2
    rw [NewMessage_prefix_command _ cmd hp1 hp2 hcmd1 hcmd2, split_eq p AT]
    simp only
    rw [split_eq _ BANG]

/-- C7 at `a = "nick"`, `b = "user"`, `c = "host"`, `cmd = "QUIT"`. -/
theorem C7_prefix_decomposition_witness :
    NewMessage ([COLON] ++ (lit "nick" ++ [BANG] ++ lit "user" ++ [AT] ++ lit "host") ++ [SP]
        ++ lit "QUIT" ++ CRLF) = .ok (⟨⟨lit "nick", lit "user", lit "host"⟩, lit "QUIT", []⟩, none)
    ∧ NewMessage ([COLON] ++ (lit "nick" ++ [AT] ++ lit "host") ++ [SP] ++ lit "QUIT" ++ CRLF)
        = .ok (⟨⟨lit "nick", [], lit "host"⟩, lit "QUIT", []⟩, none)
    ∧ NewMessage ([COLON] ++ lit "nick" ++ [SP] ++ lit "QUIT" ++ CRLF)
        = .ok (⟨⟨lit "nick", [], []⟩, lit "QUIT", []⟩, none) :=
  have h := C7_prefix_decomposition (lit "nick") (lit "user") (lit "host") (lit "QUIT")
    (by decide) (by decide) (by decide) (by decide) (by decide) (by decide) (by decide)
    (by decide) (by decide)
  ⟨h.1, h.2.1, h.2.2.1⟩

/-- C8. Terminator stripping: for every non-empty string `s` that does not
end in `'\n'`, `NewMessage(s + "\r\n")` returns the same result (message and
error) as `NewMessage(s)`; and if `s` also does not end in `'\r'`,
`NewMessage(s + "\n")` returns the same result as `NewMessage(s)`. The
terminator is stripped at most once: for every text `L` followed by two
terminators `x`, `y` (each `"\r\n"` or `"\n"`) only the final `y` is removed and
the line that is parsed is `L + x`, the earlier terminator included; so after a
trailing parameter `t` the parameter parsed is `t + x`. -/
theorem C8_terminator_stripping :
    (∀ s : GoString, s ≠ [] → s.getLast? ≠ some LF →
        NewMessage (s ++ CRLF) = NewMessage s
        ∧ (s.getLast? ≠ some CR → NewMessage (s ++ [LF]) = NewMessage s))
    ∧ (∀ (L x y : GoString), (x = CRLF ∨ x = [LF]) → (y = CRLF ∨ y = [LF]) →
        stripTerminator (L ++ x ++ y) = L ++ x
        ∧ NewMessage (L ++ x ++ y) = NewMessage.line Message.zero (L ++ x))
    ∧ (∀ (c t x y : GoString), (x = CRLF ∨ x = [LF]) → (y = CRLF ∨ y = [LF]) →
        c ≠ [] → SP ∉ c → c.head? ≠ some COLON →
        NewMessage (c ++ [SP, COLON] ++ t ++ x ++ y)
          = .ok (⟨⟨[], [], []⟩, c, [t ++ x]⟩, none)) := by
  have hgen : ∀ (L x y : GoString), (x = CRLF ∨ x = [LF]) → (y = CRLF ∨ y = [LF]) →
      stripTerminator (L ++ x ++ y) = L ++ x
      ∧ NewMessage (L ++ x ++ y) = NewMessage.line Message.zero (L ++ x) := by
    intro L x y hx hy
    have hlast : (L ++ x).getLast? ≠ some CR := by
      rcases hx with rfl | rfl
      · rw [show L ++ CRLF = (L ++ [CR]) ++ [LF] by simp, List.getLast?_concat]
        decide
      · rw [List.getLast?_concat]
        decide
    have hstrip : stripTerminator (L ++ x ++ y) = L ++ x := by
      rcases hy with rfl | rfl
      · exact stripTerminator_append_CRLF _
      · exact stripTerminator_append_LF _ hlast
    refine ⟨hstrip, ?_⟩
    have hne : L ++ x ++ y ≠ [] := by
      rcases hy with rfl | rfl <;> simp
    rw [NewMessage_eq_line _ hne, hstrip]
  refine ⟨?_, hgen, ?_⟩
  · intro s hs hlf
    have hbare : NewMessage s = NewMessage.line Message.zero s := by
      rw [NewMessage_eq_line s hs, stripTerminator_of_ne_LF s hlf]
    refine ⟨?_, ?_⟩
    · rw [hbare, NewMessage_eq_line _ (by simp), stripTerminator_append_CRLF]
    · intro hcr
      rw [hbare, NewMessage_eq_line _ (by simp), stripTerminator_append_LF s hcr]
  · intro c t x y hx hy hc hsp hcol
    have hline : NewMessage.line Message.zero (c ++ [SP, COLON] ++ t ++ x)
        = .ok (⟨⟨[], [], []⟩, c, [t ++ x]⟩, none) := by
      have hb := parse_build (Message.mk ⟨[], [], []⟩ c [t ++ x]) hc hsp
        (fun _ => ⟨rfl, rfl, hcol⟩) (by simp) (by simp) (by simp) (by simp)
      rw [String_eq, NewMessage_eq_line _ (by simp), stripTerminator_append_CRLF] at hb
      simpa [specPrefix, specParams] using hb
    rw [(hgen (c ++ [SP, COLON] ++ t) x y hx hy).2, hline]

/-- C8 at `s = "PING"`: `"PING\r\n"` and `"PING\n"` parse as `"PING"`;
`"PING\n\n"` is parsed as the line `"PING\n"` and has the command `"PING\n"`;
`":a PING b\r\n\r\n"` is parsed as the line `":a PING b\r\n"` and has the
parameter `"b\r\n"`; and `"PING :1\r\n\n"` has the parameter `"1\r\n"`. -/
theorem C8_terminator_stripping_witness :
    NewMessage (lit "PING" ++ CRLF) = NewMessage (lit "PING")
    ∧ NewMessage (lit "PING" ++ [LF]) = NewMessage (lit "PING")
    ∧ NewMessage (lit "PING" ++ [LF] ++ [LF]) = .ok (⟨⟨[], [], []⟩, lit "PING\n", []⟩, none)
    ∧ NewMessage (lit ":a PING b" ++ CRLF ++ CRLF)
        = .ok (⟨⟨lit "a", [], []⟩, lit "PING", [lit "b\r\n"]⟩, none)
    ∧ NewMessage (lit "PING" ++ [SP, COLON] ++ lit "1" ++ CRLF ++ [LF])
        = .ok (⟨⟨[], [], []⟩, lit "PING", [lit "1" ++ CRLF]⟩, none) :=
  have h := C8_terminator_stripping
  ⟨(h.1 (lit "PING") (by decide) (by decide)).1,
    (h.1 (lit "PING") (by decide) (by decide)).2 (by decide),
    (h.2.1 (lit "PING") [LF] [LF] (Or.inr rfl) (Or.inr rfl)).2.trans (by decide),
    (h.2.1 (lit ":a PING b") CRLF CRLF (Or.inl rfl) (Or.inl rfl)).2.trans (by decide),
    h.2.2 (lit "PING") (lit "1") CRLF [LF] (Or.inl rfl) (Or.inr rfl)
      (by decide) (by decide) (by decide)⟩

/-- C9. Parameter tokenization does not collapse spaces: for every command
token `c` (non-empty, no space, not starting with `':'`) and every remainder `r`
that does not end in `'\n'`, does not start with `':'` and does not contain
`" :"`, `NewMessage(c + " " + r)` succeeds with Params equal to the list obtained
by splitting `r` at every single space, except that `r = ""` yields no
parameters and, when `r` ends with a space, the final empty token of the split
is dropped; so `k + 1` consecutive spaces between two words yield `k`
empty-string parameters. -/
theorem C9_tokenization (c r : GoString)
    (hc : c ≠ []) (hsp : SP ∉ c) (hcol : c.head? ≠ some COLON)
    (hr1 : r.getLast? ≠ some LF) (hr2 : r.head? ≠ some COLON) (hr3 : ¬ [SP, COLON] <:+: r) :
    NewMessage (c ++ [SP] ++ r) =
        .ok (⟨⟨[], [], []⟩, c,
          if r = [] then [] else if r.getLast? = some SP then (r.splitOn SP).dropLast
          else r.splitOn SP⟩, none)
    ∧ (∀ (u v : GoString) (k : Nat), SP ∉ u → u.head? ≠ some COLON →
        SP ∉ v → v ≠ [] → v.head? ≠ some COLON → v.getLast? ≠ some LF →
        NewMessage (c ++ [SP] ++ (u ++ List.replicate (k + 1) SP ++ v)) =
          .ok (⟨⟨[], [], []⟩, c, u :: (List.replicate k [] ++ [v])⟩, none)) := by
  have hlen : c.length ≠ 0 := by simpa using hc
  obtain ⟨c0, hc0⟩ : ∃ c0, c.head? = some c0 := by
    cases c with
    | nil => exact absurd rfl hc
    | cons x xs => exact ⟨x, rfl⟩
  have hhead : ∀ r : GoString, (c ++ [SP] ++ r).head? = some c0 := by
    intro r
    cases c with
    | nil => exact absurd rfl hc
    | cons x xs => simpa using hc0
  have hcmd : ∀ r : GoString, r.getLast? ≠ some LF →
      NewMessage (c ++ [SP] ++ r) =
        (NewMessage.params r.length r [] >>= fun ps =>
          .ok (⟨⟨[], [], []⟩, c, ps⟩, none)) := by
    intro r hr1
    have hlast : (c ++ [SP] ++ r).getLast? ≠ some LF := by
      rw [List.getLast?_append]
      cases hr : r.getLast? with
      | none => simp; decide
      | some z =>
        rw [hr] at hr1
        simpa using hr1
    rw [NewMessage_eq_line _ (by simp), stripTerminator_of_ne_LF _ hlast,
      line_of_head _ _ c0 (hhead r) (fun e => hcol (by rw [hc0, e]))]
    have e : c ++ [SP] ++ r = c ++ SP :: r := by simp
    unfold NewMessage.command
    rw [e, split_append c r SP hsp]
    simp only [hlen, if_false]
    rfl
  constructor
  · rw [hcmd r hr1, params_tokens r.length r _ (le_refl _) hr2 hr3]
    simp [specTokens]
  · intro u v k hu1 hu2 hv1 hv2 hv3 hv4
    have hlast : (u ++ List.replicate (k + 1) SP ++ v).getLast? ≠ some LF := by
      rw [List.getLast?_append]
      cases hr : v.getLast? with
      | none => simp [List.getLast?_eq_none_iff] at hr; exact absurd hr hv2
      | some z =>
        rw [hr] at hv4
        simpa using hv4
    rw [hcmd _ hlast]
    have e : u ++ List.replicate (k + 1) SP ++ v = u ++ SP :: (List.replicate k SP ++ v) := by
      simp [List.replicate_succ]
    obtain ⟨x, hx, hxc⟩ := head_append_SP u (List.replicate k SP ++ v) hu2
    rw [e]
    have hf : ∃ f, (u ++ SP :: (List.replicate k SP ++ v)).length = f + 1
        ∧ (List.replicate k SP ++ v).length ≤ f :=
      ⟨u.length + (List.replicate k SP ++ v).length, by simp; omega, by omega⟩
    obtain ⟨f, hf1, hf2⟩ := hf
    rw [hf1]
    simp only [NewMessage.params]
    rw [index_zero_of_head _ x hx, split_append u _ SP hu1]
    simp only [Except_ok_bind, if_neg hxc]
    rw [if_pos (by simp), params_spaces v hv1 hv2 hv3 k _ f hf2]
    simp

/-- C9 at `c = "MODE"`, `r = "a  b "`: the parameters are `"a"`, `""`, `"b"`. -/
theorem C9_tokenization_witness :
    NewMessage (lit "MODE" ++ [SP] ++ lit "a  b ")
      = .ok (⟨⟨[], [], []⟩, lit "MODE", [lit "a", [], lit "b"]⟩, none)
    ∧ NewMessage (lit "MODE" ++ [SP] ++ (lit "a" ++ List.replicate (2 + 1) SP ++ lit "b"))
      = .ok (⟨⟨[], [], []⟩, lit "MODE", lit "a" :: (List.replicate 2 [] ++ [lit "b"])⟩, none) :=
  have h := C9_tokenization (lit "MODE") (lit "a  b ") (by decide) (by decide) (by decide)
    (by decide) (by decide) (by decide)
  ⟨h.1.trans (by decide),
    h.2 (lit "a") (lit "b") 2 (by decide) (by decide) (by decide) (by decide) (by decide)
      (by decide)⟩

/-- C10. Builder output format: for every Message `m`, `m.String()` equals
`P + Command + A + "\r\n"`, where `P` is empty when `Sender.Nickname` is empty
(whatever `User` and `Host` are) and otherwise
`":" + Nickname + ("!" + User if non-empty) + ("@" + Host if non-empty) + " "`,
and `A` is `" " + param` for every non-last parameter followed by
`" :" + param` for the last one, the colon being emitted also when the last
parameter is a single word or empty. -/
theorem C10_String_format (m : Message) :
    m.String = specPrefix m.Sender ++ m.Command ++ specParams m.Params ++ CRLF
    ∧ (m.Sender.Nickname = [] → specPrefix m.Sender = [])
    ∧ (∀ p : GoString, specParams [p] = [SP, COLON] ++ p)
    ∧ (∀ (ps : List GoString) (p : GoString),
        specParams (ps ++ [p]) = (ps.map fun q => [SP] ++ q).flatten ++ ([SP, COLON] ++ p)) := by
  refine ⟨String_eq m, ?_, fun _ => rfl, specParams_append_last⟩
  intro h; simp [specPrefix, h]

/-- C11. Data-model invariants hold for every parser output: for every input
on which `NewMessage` succeeds with message `m`, `m.Command` is non-empty and
contains no space, and every parameter of `m` except possibly the last
contains no space character and does not start with `':'`. -/
theorem C11_parser_output_invariants (s : GoString) (m : Message)
    (h : NewMessage s = .ok (m, none)) :
    m.Command ≠ [] ∧ SP ∉ m.Command
    ∧ (∀ p ∈ m.Params.dropLast, SP ∉ p ∧ p.head? ≠ some COLON) :=
  have hwf := NewMessage_ok_wf s m h
  ⟨hwf.1, hwf.2.1, hwf.2.2.1⟩

/-- C11 at `"MODE #chan +o  nick :x y\r\n"`, whose parameters are `"#chan"`,
`"+o"`, `""`, `"nick"`, `"x y"`. -/
theorem C11_parser_output_invariants_witness :
    NewMessage (lit "MODE #chan +o  nick :x y\r\n")
      = .ok (⟨⟨[], [], []⟩, lit "MODE", [lit "#chan", lit "+o", [], lit "nick", lit "x y"]⟩, none)
    ∧ (lit "MODE" ≠ [] ∧ SP ∉ lit "MODE"
      ∧ ∀ p ∈ (Message.mk ⟨[], [], []⟩ (lit "MODE")
          [lit "#chan", lit "+o", [], lit "nick", lit "x y"]).Params.dropLast,
        SP ∉ p ∧ p.head? ≠ some COLON) :=
  ⟨by decide,
    C11_parser_output_invariants (lit "MODE #chan +o  nick :x y\r\n")
      ⟨⟨[], [], []⟩, lit "MODE", [lit "#chan", lit "+o", [], lit "nick", lit "x y"]⟩
      (by decide)⟩

/-- C12. Building fails only on a sink fault: on a sink whose write
operations may each return an error, for every Message `m`, `build` issues the
writes of the builder's format in order; it returns nil if and only if every
write it issues succeeds; when a write fails `build` returns exactly that
write's error, the sink being as that write left it (no further write is
issued); on a sink that never fails `build` never fails, and on the string
builder used by `String` the whole line is produced. -/
theorem C12_build_fails_only_on_sink_fault {σ : Type} (m : Message) (b : builder σ) (s : σ) :
    m.build b s = b.issueAll (specWrites m) s
    ∧ ((m.build b s).2 = none ↔
        ∀ pre op post, specWrites m = pre ++ op :: post → (b.issueAll pre s).2 = none →
          (b.issue (b.issueAll pre s).1 op).2 = none)
    ∧ (∀ e, (m.build b s).2 = some e →
        ∃ pre op post, specWrites m = pre ++ op :: post ∧ (b.issueAll pre s).2 = none
          ∧ b.issue (b.issueAll pre s).1 op = ((m.build b s).1, some e))
    ∧ ((∀ s c, (b.WriteByte s c).2 = none) → (∀ s t, (b.WriteString s t).2 = none) →
        (m.build b s).2 = none)
    ∧ (∀ s0 : GoString, m.build stringsBuilder s0 = (s0 ++ m.String, none))
    ∧ m.String = specPrefix m.Sender ++ m.Command ++ specParams m.Params ++ CRLF := by
  refine ⟨build_eq_issueAll m b s, ?_, ?_, ?_, build_stringsBuilder m, String_eq m⟩
  · rw [build_eq_issueAll]
    exact issueAll_ok_iff b (specWrites m) s
  · intro e he
    rw [build_eq_issueAll] at he ⊢
    exact issueAll_err b (specWrites m) s e he
  · intro hb hs
    rw [build_eq_issueAll]
    exact issueAll_never_fails b hb hs _ s

/-- C12 on a recording sink whose write number 2 (the third) fails, for the
message `:a PING :x`: the writes recorded are `':'`, `"a"` and the failing
`' '`, and `build` returns the error of that write. -/
theorem C12_build_fails_only_on_sink_fault_witness :
    (Message.mk ⟨lit "a", [], []⟩ (lit "PING") [lit "x"]).build
        (recordingSink 2 ErrShortWrite) []
      = ([.byte COLON, .string (lit "a"), .byte SP], some ErrShortWrite)
    ∧ (Message.mk ⟨lit "a", [], []⟩ (lit "PING") [lit "x"]).build
        (recordingSink 2 ErrShortWrite) []
      = (recordingSink 2 ErrShortWrite).issueAll
          (specWrites (Message.mk ⟨lit "a", [], []⟩ (lit "PING") [lit "x"])) [] :=
  ⟨by decide,
    (C12_build_fails_only_on_sink_fault (Message.mk ⟨lit "a", [], []⟩ (lit "PING") [lit "x"])
      (recordingSink 2 ErrShortWrite) []).1⟩

/-- C13. Writer flush guarantee: with a Writer modelled as the buffer of a
`bufio.Writer` (of any size greater than zero) in front of an in-memory sink,
for every Message `m` and every starting state with an empty buffer, if
`Write(m)` returns no error then the sink's contents have grown by exactly the
bytes of `m.String()` and the Writer's buffer is empty again. -/
theorem C13_write_flushes (w : Writer) (m : Message)
    (hbuf : w.wr.buf = []) (hsz : 0 < w.wr.size) (h : (w.Write m).2 = none) :
    (w.Write m).1.wr.wr.data = w.wr.wr.data ++ m.String ∧ (w.Write m).1.wr.buf = [] :=
  Write_ok w m hbuf hsz h

/-- C13 for the message `:a PING :x y`, on the Writer that `NewWriter` makes
over a sink holding `"X"`, and on a Writer with a buffer of 4 bytes, which
flushes several times while the line is built. -/
theorem C13_write_flushes_witness :
    ((NewWriter ⟨lit "X", []⟩).Write ⟨⟨lit "a", [], []⟩, lit "PING", [lit "x y"]⟩).2 = none
    ∧ (((NewWriter ⟨lit "X", []⟩).Write ⟨⟨lit "a", [], []⟩, lit "PING", [lit "x y"]⟩).1.wr.wr.data
        = (NewWriter ⟨lit "X", []⟩).wr.wr.data
          ++ (Message.mk ⟨lit "a", [], []⟩ (lit "PING") [lit "x y"]).String
      ∧ ((NewWriter ⟨lit "X", []⟩).Write
          ⟨⟨lit "a", [], []⟩, lit "PING", [lit "x y"]⟩).1.wr.buf = [])
    ∧ (((Writer.mk ⟨none, [], 4, ⟨lit "X", []⟩⟩).Write
          ⟨⟨lit "a", [], []⟩, lit "PING", [lit "x y"]⟩).1.wr.wr.data
        = (Writer.mk ⟨none, [], 4, ⟨lit "X", []⟩⟩).wr.wr.data
          ++ (Message.mk ⟨lit "a", [], []⟩ (lit "PING") [lit "x y"]).String
      ∧ ((Writer.mk ⟨none, [], 4, ⟨lit "X", []⟩⟩).Write
          ⟨⟨lit "a", [], []⟩, lit "PING", [lit "x y"]⟩).1.wr.buf = []) :=
  ⟨by decide,
    C13_write_flushes (NewWriter ⟨lit "X", []⟩) ⟨⟨lit "a", [], []⟩, lit "PING", [lit "x y"]⟩
      (by decide) (by decide) (by decide),
    C13_write_flushes (Writer.mk ⟨none, [], 4, ⟨lit "X", []⟩⟩)
      ⟨⟨lit "a", [], []⟩, lit "PING", [lit "x y"]⟩ (by decide) (by decide) (by decide)⟩

/-- C14 (the code at the failing inputs). A blank line is a line ending at the
first `'\n'`, yet `Read` does not return a message or `ErrInvalidMessage` on
it: with `"\nPING\n"` or `"\r\nPING\n"` unread, `Read` consumes the blank line
and `NewMessage` panics on it with an index out of range. The same happens on
the `Read` that follows one which returned `ErrInvalidMessage`: with
`":a  x\n\nPONG\n"` unread the first `Read` returns `ErrInvalidMessage` and
the next `Read` panics instead of returning the parse of its line. -/
theorem C14_blank_line_panics :
    (Reader.mk ⟨lit "\nPING\n"⟩).Read = (⟨⟨lit "PING\n"⟩⟩, .error .indexOutOfRange)
    ∧ (Reader.mk ⟨lit "\r\nPING\n"⟩).Read = (⟨⟨lit "PING\n"⟩⟩, .error .indexOutOfRange)
    ∧ (Reader.mk ⟨lit ":a  x\n\nPONG\n"⟩).Read
        = (⟨⟨lit "\nPONG\n"⟩⟩, .ok (⟨⟨lit "a", [], []⟩, [], []⟩, some .ErrInvalidMessage))
    ∧ (Reader.mk ⟨lit ":a  x\n\nPONG\n"⟩).Read.1.Read
        = (⟨⟨lit "PONG\n"⟩⟩, .error .indexOutOfRange) := by
  refine ⟨by decide, by decide, by decide, by decide⟩

/-- C15. End of stream is never parsed: whenever the unread bytes contain no
`'\n'`, `Read` returns the zero Message together with the source's own error
`io.EOF`, which is not `ErrInvalidMessage`; `NewMessage` is not applied to the
partial line: also when `NewMessage` succeeds on it, `Read` does not return
its result. -/
theorem C15_read_eof (u : GoString) (h : LF ∉ u) :
    (Reader.mk ⟨u⟩).Read.2 = .ok (Message.zero, some EOF)
    ∧ EOF ≠ Error.ErrInvalidMessage
    ∧ (∀ m, NewMessage u = .ok (m, none) → (Reader.mk ⟨u⟩).Read.2 ≠ NewMessage u) := by
  rw [Read_eof u h]
  refine ⟨rfl, by decide, ?_⟩
  intro m hm
  rw [hm]
  simp

/-- C15 on the unterminated final line `"PING :1"`, a valid message that
`Read` does not return. -/
theorem C15_read_eof_witness :
    (Reader.mk ⟨lit "PING :1"⟩).Read.2 = .ok (Message.zero, some EOF)
    ∧ NewMessage (lit "PING :1") = .ok (⟨⟨[], [], []⟩, lit "PING", [lit "1"]⟩, none)
    ∧ (Reader.mk ⟨lit "PING :1"⟩).Read.2 ≠ NewMessage (lit "PING :1") :=
  have h := C15_read_eof (lit "PING :1") (by decide)
  ⟨h.1, by decide, h.2.2 ⟨⟨[], [], []⟩, lit "PING", [lit "1"]⟩ (by decide)⟩

/-- C16. Round trip under full well-formedness: for every Message `m` such
that (1) `Command` is non-empty and contains no space; (2) if
`Sender.Nickname` is empty then `User` and `Host` are empty and `Command` does
not start with `':'`; (3) `Nickname` contains none of `' '`, `'!'`, `'@'`,
`User` contains neither `' '` nor `'@'`, `Host` contains no `' '`; (4) every
non-last parameter contains no space and does not start with `':'` (it may be
empty), the last parameter being arbitrary, `NewMessage(m.String())` succeeds
and returns `m`. -/
theorem C16_roundtrip_wellformed (m : Message)
    (h1 : m.Command ≠ [] ∧ SP ∉ m.Command)
    (h2 : m.Sender.Nickname = [] →
      m.Sender.User = [] ∧ m.Sender.Host = [] ∧ m.Command.head? ≠ some COLON)
    (h3 : (SP ∉ m.Sender.Nickname ∧ BANG ∉ m.Sender.Nickname ∧ AT ∉ m.Sender.Nickname)
      ∧ (SP ∉ m.Sender.User ∧ AT ∉ m.Sender.User) ∧ SP ∉ m.Sender.Host)
    (h4 : ∀ p ∈ m.Params.dropLast, SP ∉ p ∧ p.head? ≠ some COLON) :
    NewMessage m.String = .ok (m, none) :=
  parse_build m h1.1 h1.2 h2 h3.1 h3.2.1 h3.2.2 h4

/-- C16 at a message with a server sender, a command starting with `':'`, an
empty middle parameter and a last parameter `": a :b \r\n"` that holds spaces,
colons and a line terminator. -/
theorem C16_roundtrip_wellformed_witness :
    NewMessage (Message.mk ⟨lit "irc.example.com", [], []⟩ (lit ":001")
        [lit "nick", [], lit ": a :b \r\n"]).String
      = .ok (Message.mk ⟨lit "irc.example.com", [], []⟩ (lit ":001")
        [lit "nick", [], lit ": a :b \r\n"], none) :=
  C16_roundtrip_wellformed (Message.mk ⟨lit "irc.example.com", [], []⟩ (lit ":001")
      [lit "nick", [], lit ": a :b \r\n"])
    (by decide) (by decide) (by decide) (by decide)

/-- C17. Parsing normalises: for every input `s` on which `NewMessage`
succeeds with message `m`, if the line had no prefix (it does not start with
`':'`) or `m.Sender.Nickname` is non-empty, then `NewMessage(m.String())`
succeeds and returns `m` again. -/
theorem C17_parse_build_parse (s : GoString) (m : Message)
    (h : NewMessage s = .ok (m, none))
    (hp : s.head? ≠ some COLON ∨ m.Sender.Nickname ≠ []) :
    NewMessage m.String = .ok (m, none) := by
  obtain ⟨hc1, hc2, hps, hnick, huser, hhost, hnop⟩ := NewMessage_ok_wf s m h
  refine parse_build m hc1 hc2 ?_ hnick huser hhost hps
  intro hn
  rcases hp with hp | hp
  · obtain ⟨hS, hC⟩ := hnop hp
    rw [hS]
    exact ⟨rfl, rfl, hC⟩
  · exact absurd hn hp

/-- C17 at `"MODE #chan +o  nick\n"` (no prefix; the built line is
`"MODE #chan +o  :nick\r\n"`). -/
theorem C17_parse_build_parse_witness :
    NewMessage (lit "MODE #chan +o  nick\n")
      = .ok (⟨⟨[], [], []⟩, lit "MODE", [lit "#chan", lit "+o", [], lit "nick"]⟩, none)
    ∧ NewMessage (Message.mk ⟨[], [], []⟩ (lit "MODE")
        [lit "#chan", lit "+o", [], lit "nick"]).String
      = .ok (⟨⟨[], [], []⟩, lit "MODE", [lit "#chan", lit "+o", [], lit "nick"]⟩, none) :=
  ⟨by decide,
    C17_parse_build_parse (lit "MODE #chan +o  nick\n")
      ⟨⟨[], [], []⟩, lit "MODE", [lit "#chan", lit "+o", [], lit "nick"]⟩
      (by decide) (Or.inl (by decide))⟩

/-- C18 (as stated, refuted). `NewMessage(":@h :x y")` succeeds with an empty
nickname, host `"h"`, command `":x"` and parameter `"y"`; the built line is
`":x :y\r\n"`, which starts with `':'`, and parsing it returns a message whose
sender is not empty (nickname `"x"`). For `":@h :x"` the built line `":x\r\n"`
does not parse at all. -/
theorem C18_counterexample :
    NewMessage (lit ":@h :x y") = .ok (⟨⟨[], [], lit "h"⟩, lit ":x", [lit "y"]⟩, none)
    ∧ (Message.mk ⟨[], [], lit "h"⟩ (lit ":x") [lit "y"]).String = lit ":x :y\r\n"
    ∧ NewMessage (Message.mk ⟨[], [], lit "h"⟩ (lit ":x") [lit "y"]).String
        = .ok (⟨⟨lit "x", [], []⟩, lit ":y", []⟩, none)
    ∧ (⟨lit "x", [], []⟩ : Sender) ≠ ⟨[], [], []⟩
    ∧ NewMessage (lit ":@h :x") = .ok (⟨⟨[], [], lit "h"⟩, lit ":x", []⟩, none)
    ∧ NewMessage (Message.mk ⟨[], [], lit "h"⟩ (lit ":x") []).String
        = .ok (Message.zero, some .ErrInvalidMessage) := by
  refine ⟨by decide, by decide, by decide, by decide, by decide, by decide⟩

/-- C18 (amended). The parser accepts a prefix with an empty nickname and the
builder then loses the sender: `NewMessage(":@h CMD")` succeeds with a message
whose `Sender.Nickname` is empty and whose `Sender.Host` is `"h"`; and for
every message `m` that `NewMessage` returns with an empty nickname, a non-empty
host and a command that does not start with `':'`, `m.String()` is the command
and the parameters without prefix, and `NewMessage(m.String())` returns `m`
with an empty Sender, which differs from `m`. -/
theorem C18_sender_lost :
    NewMessage (lit ":@h CMD") = .ok (⟨⟨[], [], lit "h"⟩, lit "CMD", []⟩, none)
    ∧ ∀ (s : GoString) (m : Message), NewMessage s = .ok (m, none) →
        m.Sender.Nickname = [] → m.Sender.Host ≠ [] → m.Command.head? ≠ some COLON →
        m.String = m.Command ++ specParams m.Params ++ CRLF
        ∧ NewMessage m.String = .ok (⟨⟨[], [], []⟩, m.Command, m.Params⟩, none)
        ∧ (⟨⟨[], [], []⟩, m.Command, m.Params⟩ : Message) ≠ m := by
  refine ⟨by decide, ?_⟩
  intro s m h hn hh hcol
  obtain ⟨hc1, hc2, hps, -, -, -, -⟩ := NewMessage_ok_wf s m h
  have hstr : m.String = (Message.mk ⟨[], [], []⟩ m.Command m.Params).String := by
    rw [String_eq, String_eq]
    simp [specPrefix, hn]
  refine ⟨?_, ?_, ?_⟩
  · rw [String_eq]
    simp [specPrefix, hn]
  · rw [hstr]
    exact parse_build _ hc1 hc2 (fun _ => ⟨rfl, rfl, hcol⟩) (by simp) (by simp) (by simp) hps
  · intro e
    apply hh
    rw [← e]

/-- C18 (amended) at `":@h CMD"`. -/
theorem C18_sender_lost_witness :
    (Message.mk ⟨[], [], lit "h"⟩ (lit "CMD") []).String = lit "CMD" ++ specParams [] ++ CRLF
    ∧ NewMessage (Message.mk ⟨[], [], lit "h"⟩ (lit "CMD") []).String
        = .ok (⟨⟨[], [], []⟩, lit "CMD", []⟩, none)
    ∧ (⟨⟨[], [], []⟩, lit "CMD", []⟩ : Message) ≠ ⟨⟨[], [], lit "h"⟩, lit "CMD", []⟩ :=
  C18_sender_lost.2 (lit ":@h CMD") ⟨⟨[], [], lit "h"⟩, lit "CMD", []⟩
    (by decide) (by decide) (by decide) (by decide)

/-- C19. `IsError` agrees with the constant catalog: for every Command
constant declared in the error block (`NoSuchNicknameError` `"401"` through
`UsersDontMatchError` `"502"`) a Message carrying it has `IsError()` true; for
every constant declared in the message-command block and in the reply block,
`IsError()` is false, with the single exception of `TryAgainReply` (`"263"`),
for which it is true. -/
theorem C19_IsError_catalog (s : Sender) (ps : List GoString) :
    (∀ c ∈ errorCommands, (Message.mk s c ps).IsError = true)
    ∧ (∀ c ∈ messageCommands ++ replyCommands,
        (Message.mk s c ps).IsError = decide (c = TryAgainReply))
    ∧ TryAgainReply ∈ replyCommands
    ∧ (Message.mk s TryAgainReply ps).IsError = true
    ∧ errorCommands.head? = some NoSuchNicknameError
    ∧ errorCommands.getLast? = some UsersDontMatchError
    ∧ errorCommands.length = 53 ∧ messageCommands.length = 45 ∧ replyCommands.length = 81 := by
  have key : ∀ c : GoString,
      (Message.mk s c ps).IsError = (Message.mk ⟨[], [], []⟩ c []).IsError := fun _ => rfl
  refine ⟨?_, ?_, by decide, rfl, rfl, by decide, rfl, rfl, rfl⟩
  · intro c hc
    rw [key]
    revert c
    set_option maxRecDepth 20000 in decide
  · intro c hc
    rw [key]
    revert c
    set_option maxRecDepth 20000 in decide

end IRC
